import Mathlib

set_option maxHeartbeats 1600000
set_option maxRecDepth 8000
set_option linter.unusedVariables false

/-!
Verification development for the Dynamite texture-baking network generator
(dynamite.py and topo_match.py).  The definitions below are a shallow
embedding of the partition-set reconciler, the partition-set validator, the
aggregator multiparm handling, the persisted prim-group string operations and
the topology-correspondence subnetwork; the theorems settle the specified
properties against these definitions.
-/

namespace Dynamite


/-! ### Python string primitives

The persisted control state is a single space-joined string, manipulated with
`str.split(' ')`, `' '.join(...)` and `sorted(...)`.  These are modelled
character-exactly: `split(' ')` cuts at every single space (so the empty
string yields `[""]`), and `join` is its left inverse on space-free pieces. -/

/-- Python str.split(" ") on character lists: cuts at every space character,
yielding exactly one piece more than the number of spaces. -/

def pySplitChars : List Char → List (List Char)
  | [] => [[]]
  | c :: rest =>
    if c = ' ' then [] :: pySplitChars rest
    else (c :: (pySplitChars rest).headD []) :: (pySplitChars rest).tail

/-- Python " ".join on character lists. -/

def pyJoinChars : List (List Char) → List Char
  | [] => []
  | [p] => p
  | p :: ps => p ++ ' ' :: pyJoinChars ps

/-- Python s.split(" ") for strings. -/

def pySplit (s : String) : List String := (pySplitChars s.data).map String.mk

/-- Python " ".join(l) for strings. -/

def pyJoin (l : List String) : String := String.mk (pyJoinChars (l.map String.data))

/-! ### Python string comparison and sorted

Python 2 compares strings lexicographically by byte; on the character lists
this is lexicographic comparison of the character codes.  `sorted` is a
stable ascending sort, modelled by insertion sort with the same comparison. -/

/-- Lexicographic strict comparison of character lists by character code. -/

def pyLtChars : List Char → List Char → Bool
  | [], [] => false
  | [], _ :: _ => true
  | _ :: _, [] => false
  | a :: as, b :: bs =>
    if a.toNat < b.toNat then true
    else if b.toNat < a.toNat then false
    else pyLtChars as bs

/-- Python string strict comparison. -/

def pyLt (a b : String) : Bool := pyLtChars a.data b.data

/-- Stable insertion into a sorted list, placing equal elements after
existing ones (as Python sorted does). -/

def insertName (x : String) : List String → List String
  | [] => [x]
  | y :: ys => if pyLt x y then x :: y :: ys else y :: insertName x ys

/-- Python sorted(...) on a list of strings. -/

def sortNames : List String → List String
  | [] => []
  | x :: xs => insertName x (sortNames xs)

/-! ### Substring containment (the Python "in" operator on strings) -/

/-- Returns true when needle occurs as a contiguous sublist of hay. -/

def listContainsSub (needle : List Char) : List Char → Bool
  | [] => needle.isPrefixOf []
  | c :: t => needle.isPrefixOf (c :: t) || listContainsSub needle t

/-- Python "needle in hay" for strings: substring containment. -/

def strContains (hay needle : String) : Bool := listContainsSub needle.data hay.data

/-! ### Meshes and the topo_match subnetwork (topo_match.py)

Only the fields the correspondence logic manipulates are modelled: point
positions, primitive connectivity and the per-primitive material path
attribute.  Positions are integer triples (their values are opaque to the
logic).  Point and primitive groups, normals and uvs are outside the
modelled fields; nodes that touch only those are identities here. -/

/-- Position value. -/

abbrev V3 := Int × Int × Int

/-- The zero vector, the VEX default value for a failed attribute lookup. -/

def vzero : V3 := (0, 0, 0)

/-- Mesh: point positions, primitive connectivity, per-primitive
shop_materialpath attribute values. -/

structure Mesh where
  pos : List V3
  prims : List (List Nat)
  primMat : List String
deriving DecidableEq

/-- Runs the match_point_positions wrangle over the points of input 0,
starting at point number i: each point position becomes
pointattrib(1, "P", ptnum, success) read from the donor, which is the zero
vector when ptnum is out of range (the snippet ignores the success flag). -/

def wranglePosAux (donor : List V3) (i : Nat) : List V3 → List V3
  | [] => []
  | _ :: rest => donor.getD i vzero :: wranglePosAux donor (i + 1) rest

/-- The match_point_positions attribwrangle (class 2, points): iterates the
points of input 0 and assigns each @P from input 1 at the same point number. -/

def match_point_positions (geo0 geo1 : Mesh) : Mesh :=
  { geo0 with pos := wranglePosAux geo1.pos 0 geo0.pos }

/-- The delete_non_crucial_attribs attribdelete: keeps point P, N, vertex N
and uv, deletes all primitive and detail attributes (so the material path
attribute is removed); positions and connectivity are untouched. -/

def delete_non_crucial_attribs (m : Mesh) : Mesh := { m with primMat := [] }

/-- The remove_source_groups groupdelete: deletes every group; group data is
outside the modelled mesh fields, positions, prims and attributes unchanged. -/

def remove_source_groups (m : Mesh) : Mesh := m

/-- The transfer_groups grouptransfer: copies groups over from its second
input; group data is outside the modelled mesh fields. -/

def transfer_groups (m donor : Mesh) : Mesh := m

/-- The normal SOP: recomputes the normal attribute only. -/

def normal_node (m : Mesh) : Mesh := m

/-- Semantics of the subnetwork built by topo_match.create_node.  Inside the
subnetwork the wrangle takes its geometry (input 0) from the subnetwork
second input and its position source (input 1) from the subnetwork first
input; then attributes and groups are cleaned, groups are transferred back
from the subnetwork first input, and normals are recomputed. -/

def topo_match_subnet (input0 input1 : Mesh) : Mesh :=
  let w := match_point_positions input1 input0
  let a := delete_non_crucial_attribs w
  let g := remove_source_groups a
  let t := transfer_groups g input0
  normal_node t

/-- The per-prim-group shop_path_delete attribdelete inside a cage group:
removes the shop_materialpath primitive attribute. -/

def shop_path_delete (m : Mesh) : Mesh := { m with primMat := [] }

/-- The topology-correspondence stage of create_cage_group: the subnetwork
first input is wired to the cage chain subdivide switch, the second input to
the material-stripped re-import of the sibling retopo group triangulated
output. -/

def cage_topology_stage (subdividedCage retopoTriangulated : Mesh) : Mesh :=
  topo_match_subnet subdividedCage (shop_path_delete retopoTriangulated)

/-- The correspondence engine of the specification: the position donor
enters the subnetwork first input and the topology donor its second input,
exactly as create_cage_group wires them. -/

def correspond (positionDonor topologyDonor : Mesh) : Mesh :=
  topo_match_subnet positionDonor topologyDonor

/-! ### Partition-set validator (primitive_groups_match, dynamite.py) -/

/-- The two distinct user-visible failure messages of the validator. -/

inductive MatchMsg where
  | noMatch
  | noGroups
deriving DecidableEq

/-- primitive_groups_match on the two lists of primitive group names: first
the length comparison, then the one-empty check (unreachable after the
length check), then the both-empty check, then sorted-name comparison.  The
second component is the message displayed on failure. -/

def primitive_groups_match (g1 g2 : List String) : Bool × Option MatchMsg :=
  if g1.length ≠ g2.length then (false, some .noMatch)
  else if (g1.length = 0 ∧ g2.length ≠ 0) ∨ (g1.length ≠ 0 ∧ g2.length = 0) then
    (false, some .noMatch)
  else if g1.length = 0 ∧ g2.length = 0 then (false, some .noGroups)
  else if sortNames g1 = sortNames g2 then (true, none)
  else (false, some .noMatch)

/-! ### The persisted prim-group list (dynamite.py control state) -/

/-- get_current_prim_groups: None when the persisted string is empty,
otherwise the space-split name list. -/

def get_current_prim_groups (s : String) : Option (List String) :=
  if s = "" then none else some (pySplit s)

/-- The current prim-group list read back from the persisted string, with
None read as the empty list. -/

def curList (s : String) : List String := (get_current_prim_groups s).getD []

/-- set_current_prim_groups: persists the sorted, space-joined name list. -/

def set_current_prim_groups (names : List String) : String :=
  pyJoin (sortNames names)

/-- add_to_current_prim_groups: appends the name when absent, then persists
the sorted joined list (the persist step happens even when the name was
already present). -/

def add_to_current_prim_groups (s name : String) : String :=
  let l0 := (get_current_prim_groups s).getD []
  let l1 := if name ∈ l0 then l0 else l0 ++ [name]
  pyJoin (sortNames l1)

/-- remove_from_current_prim_groups: returns the string unchanged when the
list is None or the name is absent, otherwise removes the name and persists
the sorted joined remainder. -/

def remove_from_current_prim_groups (s name : String) : String :=
  match get_current_prim_groups s with
  | none => s
  | some l => if name ∈ l then set_current_prim_groups (l.erase name) else s

/-- A well-formed partition name: non-empty and space-free (Houdini group
names cannot contain spaces). -/

def goodName (s : String) : Prop := s ≠ "" ∧ ' ' ∉ s.data

instance (s : String) : Decidable (goodName s) :=
  decidable_of_iff (s ≠ "" ∧ ' ' ∉ s.data) Iff.rfl

/-- All names in a list are well formed. -/

def goodNames (l : List String) : Prop := ∀ x ∈ l, goodName x

instance (l : List String) : Decidable (goodNames l) :=
  decidable_of_iff (∀ x ∈ l, goodName x) Iff.rfl

/-! ### The aggregator multiparm (remove_from_multiparm, dynamite.py)

The per-role output object_merge holds its references in the numobj
multiparm: each instance contributes the four parameters enable#, objpath#,
group#, expand#, so an objpath parameter of instance k (0-based) sits at
flat parameter index 4k+1.  multiParmInstanceIndices returns that flat
index, which remove_from_multiparm divides by the stride 4 to recover the

instance to remove. -/

/-- One flat multiparm instance parameter: its flat index, its name base and
its evaluated value.  The numeric suffix of the real parameter name is a
digit string, which cannot affect the "objpath" substring filter, so names
are modelled by their bases. -/

structure FlatParm where
  idx : Nat
  name : String
  value : String
deriving DecidableEq

/-- The flat instance parameters of the object_merge numobj multiparm for
the given objpath entries, starting at the given flat index. -/

def objMergeParmsFrom (start : Nat) : List String → List FlatParm
  | [] => []
  | path :: rest =>
    ⟨start, "enable", "1"⟩ :: ⟨start + 1, "objpath", path⟩ ::
    ⟨start + 2, "group", ""⟩ :: ⟨start + 3, "expand", "1"⟩ ::
    objMergeParmsFrom (start + 4) rest

/-- multiParmInstances of the numobj multiparm. -/

def multiParmInstances (entries : List String) : List FlatParm :=
  objMergeParmsFrom 0 entries

/-- remove_from_multiparm: keeps the instance parameters whose name contains
parm_name, takes the first whose value contains the target value, divides
its flat index by 4 and removes that multiparm instance; when nothing
matches the multiparm is left as it is. -/

def remove_from_multiparm (entries : List String) (parm_name value : String) :
    List String :=
  match ((multiParmInstances entries).filter
      (fun p => strContains p.name parm_name)).find?
      (fun p => strContains p.value value) with
  | some p => entries.eraseIdx (p.idx / 4)
  | none => entries

/-- Reference behaviour of the removal: drop the first entry containing the
value, keep everything else in order. -/

def removeFirstContaining (value : String) : List String → List String
  | [] => []
  | e :: rest =>
    if strContains e value then rest else e :: removeFirstContaining value rest

/-- The objpath parameters only, with their flat indices. -/

def objpathParmsFrom (start : Nat) : List String → List FlatParm
  | [] => []
  | path :: rest => ⟨start + 1, "objpath", path⟩ :: objpathParmsFrom (start + 4) rest

/-! ### Path resolution helpers (is_path_fbx, path_exists) -/

/-- Characters of the path after the last slash. -/

def basenameChars (p : List Char) : List Char :=
  (p.reverse.takeWhile (fun c => c ≠ '/')).reverse

/-- os.path.splitext extension of the path (including the dot): starts at
the last dot of the basename, except that leading dots of the basename do
not begin an extension. -/

def splitextExtChars (p : List Char) : List Char :=
  let b := basenameChars p
  let lead := b.takeWhile (fun c => c = '.')
  let rest := b.drop lead.length
  let tailRev := rest.reverse.takeWhile (fun c => c ≠ '.')
  if tailRev.length = rest.length then [] else '.' :: tailRev.reverse

/-- is_path_fbx: true exactly when the lowercased extension is ".fbx". -/

def is_path_fbx (path : String) : Bool :=
  decide (String.mk ((splitextExtChars path.data).map Char.toLower) = ".fbx")

/-- path_exists: an "op:/" path resolves through the scene node table (the
leading three characters are dropped before the lookup), any other path
through the file system. -/

def path_exists (nodeAt isFile : String → Bool) (path : String) : Bool :=
  if path.data.take 4 = "op:/".data then nodeAt (String.mk (path.data.drop 3))
  else isFile path

/-! ### The network state and update_network (dynamite.py)

The state carries the parts of the scene that update_network reads or
writes: the bake group object nodes of the network location (addressed by
their exact names), the per-group control folders, the three output
object_merge multiparm entry lists, the per-group display-button script
callbacks (keyed by group name; the payload is the group name list baked
into the callback string), opaque per-group data standing for the
edit-region contents and per-group parameter values (destroyed together
with the group), the persisted prim-group string, and the import parameters
of the main and temporary file SOPs.  Python AttributeError on a None node
and hou.OperationFailed are modelled by the error results. -/

/-- Errors raised (as Python exceptions) during update_network. -/

inductive UErr where
  | nodeMissing (name : String)
  | folderMissing (name : String)
  | nameTaken (name : String)
  | callbackMissing (name : String)
deriving DecidableEq

instance {ε α : Type} [DecidableEq ε] [DecidableEq α] : DecidableEq (Except ε α) :=
  fun a b =>
    match a, b with
    | .ok x, .ok y =>
      if h : x = y then isTrue (by rw [h])
      else isFalse (fun hc => h (Except.ok.inj hc))
    | .error e, .error f =>
      if h : e = f then isTrue (by rw [h])
      else isFalse (fun hc => h (Except.error.inj hc))
    | .ok _, .error _ => isFalse (fun hc => Except.noConfusion hc)
    | .error _, .ok _ => isFalse (fun hc => Except.noConfusion hc)

/-- The modelled scene and control state around update_network. -/

structure NetState where
  location : String
  retopoSourcePath : String
  referenceSourcePath : String
  primGroups : String
  nodes : List String
  folders : List String
  retopoAgg : List String
  referenceAgg : List String
  cageAgg : List String
  callbacks : List (String × List String)
  groupData : List (String × Nat)
  tempRetopoFile : String
  tempReferenceFile : String
  tempRetopoIsFbx : Bool
  tempReferenceIsFbx : Bool
  mainRetopoFile : String
  mainReferenceFile : String
deriving DecidableEq

/-- Association-list lookup by name. -/

def lookupAssoc {α : Type} (l : List (String × α)) (k : String) : Option α :=
  match l.find? (fun p => p.1 == k) with
  | some p => some p.2
  | none => none

/-- Association-list update: replace the value under the first matching key,
or append the binding when the key is new. -/

def setAssoc {α : Type} : List (String × α) → String → α → List (String × α)
  | [], k, v => [(k, v)]
  | p :: t, k, v => if p.1 == k then (k, v) :: t else p :: setAssoc t k v

/-- hou.node(path).destroy(): destroying a node that cannot be found is the
AttributeError on None. -/

def destroyNode (nodes : List String) (name : String) : Except UErr (List String) :=
  if name ∈ nodes then .ok (nodes.erase name) else .error (.nodeMissing name)

/-- createNode plus setName: renaming onto an existing node name raises. -/

def createNodeNamed (nodes : List String) (name : String) : Except UErr (List String) :=
  if name ∈ nodes then .error (.nameTaken name) else .ok (nodes ++ [name])

/-- One iteration of the removal loop of update_network: remove the matching
objpath entry from each of the three output multiparms, destroy the three
bake group nodes, drop the name from the prim-group string and remove the
control folder (with the buttons it holds); the edit-region data dies with
the cage node. -/

def removeCandidate (st : NetState) (c : String) : Except UErr NetState :=
  let st1 := { st with
    retopoAgg := remove_from_multiparm st.retopoAgg "objpath"
      (st.location ++ "/" ++ c ++ "_retopo"),
    referenceAgg := remove_from_multiparm st.referenceAgg "objpath"
      (st.location ++ "/" ++ c ++ "_reference"),
    cageAgg := remove_from_multiparm st.cageAgg "objpath"
      (st.location ++ "/" ++ c ++ "_cage") }
  match destroyNode st1.nodes (c ++ "_retopo") with
  | .error e => .error e
  | .ok n1 =>
    match destroyNode n1 (c ++ "_reference") with
    | .error e => .error e
    | .ok n2 =>
      match destroyNode n2 (c ++ "_cage") with
      | .error e => .error e
      | .ok n3 =>
        if (c ++ "_folder") ∈ st1.folders then
          .ok { st1 with
            nodes := n3,
            groupData := st1.groupData.filter (fun p => p.1 != c),
            primGroups := remove_from_current_prim_groups st1.primGroups c,
            folders := st1.folders.erase (c ++ "_folder"),
            callbacks := st1.callbacks.filter (fun p => p.1 != c) }
        else .error (.folderMissing (c ++ "_folder"))

/-- One iteration of the addition loop of update_network:
create_retopo_group (node, control folder, buttons whose callbacks embed the
current sorted group-name list, default per-group data),
create_reference_group and create_cage_group (which appends the name to the
prim-group list), then one objpath entry appended to each output multiparm,
then the name appended to the prim-group list once more. -/

def addCandidate (allNames : List String) (st : NetState) (c : String) :
    Except UErr NetState :=
  match createNodeNamed st.nodes (c ++ "_retopo") with
  | .error e => .error e
  | .ok n1 =>
    let st1 := { st with
      nodes := n1,
      folders := st.folders ++ [c ++ "_folder"],
      callbacks := setAssoc st.callbacks c allNames,
      groupData := setAssoc st.groupData c 0 }
    match createNodeNamed st1.nodes (c ++ "_reference") with
    | .error e => .error e
    | .ok n2 =>
      match createNodeNamed n2 (c ++ "_cage") with
      | .error e => .error e
      | .ok n3 =>
        let st2 := { st1 with
          nodes := n3,
          primGroups := add_to_current_prim_groups st1.primGroups c }
        let st3 := { st2 with
          retopoAgg := st2.retopoAgg ++ [st2.location ++ "/" ++ c ++ "_retopo"],
          referenceAgg :=
            st2.referenceAgg ++ [st2.location ++ "/" ++ c ++ "_reference"],
          cageAgg := st2.cageAgg ++ [st2.location ++ "/" ++ c ++ "_cage"] }
        .ok { st3 with primGroups := add_to_current_prim_groups st3.primGroups c }

/-- The removal loop over the sorted removal candidates. -/

def removeLoop : NetState → List String → Except UErr NetState
  | st, [] => .ok st
  | st, c :: cs =>
    match removeCandidate st c with
    | .ok st1 => removeLoop st1 cs
    | .error e => .error e

/-- The addition loop over the sorted addition candidates. -/

def addLoop (allNames : List String) : NetState → List String → Except UErr NetState
  | st, [] => .ok st
  | st, c :: cs =>
    match addCandidate allNames st c with
    | .ok st1 => addLoop allNames st1 cs
    | .error e => .error e

/-- update_display_buttons: for every group of the reloaded retopo geometry,
rewrite the script callbacks of its display buttons so that they embed the
current sorted group-name list; a missing button template is the
AttributeError on None. -/

def buttonsLoop (allNames : List String) : NetState → List String → Except UErr NetState
  | st, [] => .ok st
  | st, n :: ns =>
    match lookupAssoc st.callbacks n with
    | some _ => buttonsLoop allNames { st with callbacks := setAssoc st.callbacks n allNames } ns
    | none => .error (.callbackMissing n)

/-- The removal set: sorted(set(old names) - set(new names)), where the old
names come from splitting the persisted string and the new names from the
sorted group list of the reloaded geometry. -/

def removalCandidates (st : NetState) (retopoGroups : List String) : List String :=
  sortNames (((pySplit st.primGroups).filter
    (fun x => decide (x ∉ sortNames retopoGroups))).dedup)

/-- The addition set: sorted(set(new names) - set(old names)). -/

def additionCandidates (st : NetState) (retopoGroups : List String) : List String :=
  sortNames (((sortNames retopoGroups).filter
    (fun x => decide (x ∉ pySplit st.primGroups))).dedup)

/-- update_network: point the temporary file SOPs at the configured source
paths and reload them (also refreshing the temporary fbx switches), validate
the two reloaded temporary geometries with primitive_groups_match and stop
without touching anything else when they do not match; otherwise point the
main file SOPs at the source paths, remove the stale bake bundles, add the
new ones and refresh the display buttons.  The two list arguments are the
prim-group name lists of the reloaded retopo and reference geometries. -/

def update_network (st : NetState) (retopoGroups referenceGroups : List String) :
    Except UErr NetState :=
  let st1 := { st with
    tempRetopoFile := st.retopoSourcePath,
    tempReferenceFile := st.referenceSourcePath,
    tempRetopoIsFbx := is_path_fbx st.retopoSourcePath,
    tempReferenceIsFbx := is_path_fbx st.referenceSourcePath }
  if (primitive_groups_match retopoGroups referenceGroups).1 = false then .ok st1
  else
    let st2 := { st1 with
      mainRetopoFile := st1.retopoSourcePath,
      mainReferenceFile := st1.referenceSourcePath }
    match removeLoop st2 (removalCandidates st retopoGroups) with
    | .error e => .error e
    | .ok st3 =>
      match addLoop (sortNames retopoGroups) st3 (additionCandidates st retopoGroups) with
      | .error e => .error e
      | .ok st4 => buttonsLoop (sortNames retopoGroups) st4 retopoGroups

/-! ### create_network and its scene (dynamite.py)

Only what decides the abort-before-mutation question is modelled: the
material creation that create_network performs before it checks that the
source paths resolve, the source-network creation, the validation on the
freshly imported geometries (destroying the two source networks again on
mismatch), and the bake-group construction of the success path. -/

/-- Errors that abort create_network (displayMessage plus sys.exit). -/

inductive CreateErr where
  | sourceMissing (which : String)
  | partitionMismatch
deriving DecidableEq

/-- The scene state around create_network. -/

structure ObjScene where
  matNodes : List String
  cageMaterialParm : String
  referenceMaterialParm : String
  sourceNetworks : List String
  bakeNodes : List String
  outputNodes : List String
  scenePrimGroups : String
  networkExists : Bool
deriving DecidableEq

/-- create_material: creates the named material under /mat unless it already
exists, and returns its path. -/

def create_material (sc : ObjScene) (name : String) : ObjScene × String :=
  if name ∈ sc.matNodes then (sc, "/mat/" ++ name)
  else ({ sc with matNodes := sc.matNodes ++ [name] }, "/mat/" ++ name)

/-- The three bake group nodes per prim group, in creation order. -/

def bakeNodesFor (names : List String) : List String :=
  names.foldl
    (fun acc n => acc ++ [n ++ "_retopo", n ++ "_reference", n ++ "_cage"]) []

/-- create_network: creates the cage and reference materials and stores
their paths on the control node, only then checks that the two source paths
resolve (aborting with the source-missing error when one does not), creates
the two source networks, validates the imported geometries with
primitive_groups_match (destroying the two source networks and aborting on
mismatch), and finally builds one bake bundle per sorted prim group, the
three output groups and marks the network as existing. -/

def create_network (sc : ObjScene) (retopoPathOk referencePathOk : Bool)
    (retopoGroups referenceGroups : List String) : ObjScene × Option CreateErr :=
  let m1 := create_material sc "cage"
  let m2 := create_material m1.1 "reference"
  let sc1 := { m2.1 with
    cageMaterialParm := m1.2,
    referenceMaterialParm := m2.2 }
  if retopoPathOk = false then (sc1, some (.sourceMissing "retopo"))
  else if referencePathOk = false then (sc1, some (.sourceMissing "reference"))
  else
    let sc2 := { sc1 with
      sourceNetworks := sc1.sourceNetworks ++ ["retopo_source", "reference_source"] }
    if (primitive_groups_match retopoGroups referenceGroups).1 = false then
      ({ sc2 with sourceNetworks :=
          (sc2.sourceNetworks.erase "retopo_source").erase "reference_source" },
        some .partitionMismatch)
    else
      let names := sortNames retopoGroups
      ({ sc2 with
        bakeNodes := sc2.bakeNodes ++ bakeNodesFor names,
        scenePrimGroups :=
          names.foldl (fun s n => add_to_current_prim_groups s n) sc2.scenePrimGroups,
        outputNodes := sc2.outputNodes ++
          ["retopo_output", "reference_output", "cage_output"],
        networkExists := true }, none)

/-- All pieces of one bake bundle that the removal loop must find. -/

def groupPieces (st : NetState) (c : String) : Prop :=
  (c ++ "_retopo") ∈ st.nodes ∧ (c ++ "_reference") ∈ st.nodes ∧
  (c ++ "_cage") ∈ st.nodes ∧ (c ++ "_folder") ∈ st.folders

instance (st : NetState) (c : String) : Decidable (groupPieces st c) :=
  decidable_of_iff ((c ++ "_retopo") ∈ st.nodes ∧ (c ++ "_reference") ∈ st.nodes ∧
    (c ++ "_cage") ∈ st.nodes ∧ (c ++ "_folder") ∈ st.folders) Iff.rfl

/-- None of the three node names of one bake bundle exists yet. -/

def groupAbsent (st : NetState) (c : String) : Prop :=
  (c ++ "_retopo") ∉ st.nodes ∧ (c ++ "_reference") ∉ st.nodes ∧
  (c ++ "_cage") ∉ st.nodes

instance (st : NetState) (c : String) : Decidable (groupAbsent st c) :=
  decidable_of_iff ((c ++ "_retopo") ∉ st.nodes ∧ (c ++ "_reference") ∉ st.nodes ∧
    (c ++ "_cage") ∉ st.nodes) Iff.rfl

/-- The state produced by one successful removal iteration. -/

def removedState (st : NetState) (c : String) : NetState :=
  { st with
    retopoAgg :=
      removeFirstContaining (st.location ++ "/" ++ c ++ "_retopo") st.retopoAgg,
    referenceAgg :=
      removeFirstContaining (st.location ++ "/" ++ c ++ "_reference") st.referenceAgg,
    cageAgg :=
      removeFirstContaining (st.location ++ "/" ++ c ++ "_cage") st.cageAgg,
    nodes := ((st.nodes.erase (c ++ "_retopo")).erase
      (c ++ "_reference")).erase (c ++ "_cage"),
    groupData := st.groupData.filter (fun p => p.1 != c),
    primGroups := remove_from_current_prim_groups st.primGroups c,
    folders := st.folders.erase (c ++ "_folder"),
    callbacks := st.callbacks.filter (fun p => p.1 != c) }

/-- The state produced by one successful addition iteration. -/

def addedState (allNames : List String) (st : NetState) (c : String) : NetState :=
  { st with
    nodes := ((st.nodes ++ [c ++ "_retopo"]) ++ [c ++ "_reference"]) ++ [c ++ "_cage"],
    folders := st.folders ++ [c ++ "_folder"],
    callbacks := setAssoc st.callbacks c allNames,
    groupData := setAssoc st.groupData c 0,
    retopoAgg := st.retopoAgg ++ [st.location ++ "/" ++ c ++ "_retopo"],
    referenceAgg := st.referenceAgg ++ [st.location ++ "/" ++ c ++ "_reference"],
    cageAgg := st.cageAgg ++ [st.location ++ "/" ++ c ++ "_cage"],
    primGroups := add_to_current_prim_groups
      (add_to_current_prim_groups st.primGroups c) c }

/-- What the removal loop guarantees relative to its input state. -/

structure RemovalSpec (st st2 : NetState) (cs : List String) : Prop where
  location_eq : st2.location = st.location
  retopoSourcePath_eq : st2.retopoSourcePath = st.retopoSourcePath
  referenceSourcePath_eq : st2.referenceSourcePath = st.referenceSourcePath
  tempRetopoFile_eq : st2.tempRetopoFile = st.tempRetopoFile
  tempReferenceFile_eq : st2.tempReferenceFile = st.tempReferenceFile
  tempRetopoIsFbx_eq : st2.tempRetopoIsFbx = st.tempRetopoIsFbx
  tempReferenceIsFbx_eq : st2.tempReferenceIsFbx = st.tempReferenceIsFbx
  mainRetopoFile_eq : st2.mainRetopoFile = st.mainRetopoFile
  mainReferenceFile_eq : st2.mainReferenceFile = st.mainReferenceFile
  mem_cur : ∀ x, x ∈ curList st2.primGroups ↔
    (x ∈ curList st.primGroups ∧ x ∉ cs)
  good_cur : goodNames (curList st2.primGroups)
  nodup_cur : (curList st2.primGroups).Nodup
  nodes_sub : ∀ nm, nm ∈ st2.nodes → nm ∈ st.nodes
  nodes_keep : ∀ nm, nm ∈ st.nodes →
    (∀ c ∈ cs, nm ≠ c ++ "_retopo" ∧ nm ≠ c ++ "_reference" ∧ nm ≠ c ++ "_cage") →
    nm ∈ st2.nodes
  folders_keep : ∀ f, f ∈ st.folders →
    (∀ c ∈ cs, f ≠ c ++ "_folder") → f ∈ st2.folders
  callbacks_keep : ∀ k, k ∉ cs →
    lookupAssoc st2.callbacks k = lookupAssoc st.callbacks k
  groupData_keep : ∀ k, k ∉ cs →
    lookupAssoc st2.groupData k = lookupAssoc st.groupData k
  retopoAgg_keep : ∀ e, e ∈ st.retopoAgg →
    (∀ c ∈ cs, strContains e (st.location ++ "/" ++ c ++ "_retopo") = false) →
    e ∈ st2.retopoAgg
  referenceAgg_keep : ∀ e, e ∈ st.referenceAgg →
    (∀ c ∈ cs, strContains e (st.location ++ "/" ++ c ++ "_reference") = false) →
    e ∈ st2.referenceAgg
  cageAgg_keep : ∀ e, e ∈ st.cageAgg →
    (∀ c ∈ cs, strContains e (st.location ++ "/" ++ c ++ "_cage") = false) →
    e ∈ st2.cageAgg

/-- What the addition loop guarantees relative to its input state. -/

structure AdditionSpec (st st2 : NetState) (cs allNames : List String) : Prop where
  location_eq : st2.location = st.location
  retopoSourcePath_eq : st2.retopoSourcePath = st.retopoSourcePath
  referenceSourcePath_eq : st2.referenceSourcePath = st.referenceSourcePath
  tempRetopoFile_eq : st2.tempRetopoFile = st.tempRetopoFile
  tempReferenceFile_eq : st2.tempReferenceFile = st.tempReferenceFile
  tempRetopoIsFbx_eq : st2.tempRetopoIsFbx = st.tempRetopoIsFbx
  tempReferenceIsFbx_eq : st2.tempReferenceIsFbx = st.tempReferenceIsFbx
  mainRetopoFile_eq : st2.mainRetopoFile = st.mainRetopoFile
  mainReferenceFile_eq : st2.mainReferenceFile = st.mainReferenceFile
  mem_cur : ∀ x, x ∈ curList st2.primGroups ↔
    (x ∈ curList st.primGroups ∨ x ∈ cs)
  good_cur : goodNames (curList st2.primGroups)
  nodup_cur : (curList st2.primGroups).Nodup
  nodes_grow : ∀ nm, nm ∈ st.nodes → nm ∈ st2.nodes
  folders_grow : ∀ f, f ∈ st.folders → f ∈ st2.folders
  callbacks_keep : ∀ k, k ∉ cs →
    lookupAssoc st2.callbacks k = lookupAssoc st.callbacks k
  callbacks_new : ∀ c, c ∈ cs → lookupAssoc st2.callbacks c = some allNames
  groupData_keep : ∀ k, k ∉ cs →
    lookupAssoc st2.groupData k = lookupAssoc st.groupData k
  retopoAgg_grow : ∀ e, e ∈ st.retopoAgg → e ∈ st2.retopoAgg
  referenceAgg_grow : ∀ e, e ∈ st.referenceAgg → e ∈ st2.referenceAgg
  cageAgg_grow : ∀ e, e ∈ st.cageAgg → e ∈ st2.cageAgg

/-- What the display-button refresh guarantees: only the callbacks change. -/

structure ButtonsSpec (st st2 : NetState) (ns allNames : List String) : Prop where
  location_eq : st2.location = st.location
  retopoSourcePath_eq : st2.retopoSourcePath = st.retopoSourcePath
  referenceSourcePath_eq : st2.referenceSourcePath = st.referenceSourcePath
  tempRetopoFile_eq : st2.tempRetopoFile = st.tempRetopoFile
  tempReferenceFile_eq : st2.tempReferenceFile = st.tempReferenceFile
  tempRetopoIsFbx_eq : st2.tempRetopoIsFbx = st.tempRetopoIsFbx
  tempReferenceIsFbx_eq : st2.tempReferenceIsFbx = st.tempReferenceIsFbx
  mainRetopoFile_eq : st2.mainRetopoFile = st.mainRetopoFile
  mainReferenceFile_eq : st2.mainReferenceFile = st.mainReferenceFile
  primGroups_eq : st2.primGroups = st.primGroups
  nodes_eq : st2.nodes = st.nodes
  folders_eq : st2.folders = st.folders
  retopoAgg_eq : st2.retopoAgg = st.retopoAgg
  referenceAgg_eq : st2.referenceAgg = st.referenceAgg
  cageAgg_eq : st2.cageAgg = st.cageAgg
  groupData_eq : st2.groupData = st.groupData
  callbacks_keep : ∀ k, k ∉ ns →
    lookupAssoc st2.callbacks k = lookupAssoc st.callbacks k
  callbacks_set : ∀ n ∈ ns, lookupAssoc st2.callbacks n = some allNames

/-! ### Abort behaviour of the removal loop when the graph is corrupted -/

/-- Some expected piece of the bake bundle cannot be located. -/

def missingPieces (st : NetState) (c : String) : Prop :=
  (c ++ "_retopo") ∉ st.nodes ∨ (c ++ "_reference") ∉ st.nodes ∨
  (c ++ "_cage") ∉ st.nodes ∨ (c ++ "_folder") ∉ st.folders

instance (st : NetState) (c : String) : Decidable (missingPieces st c) :=
  decidable_of_iff ((c ++ "_retopo") ∉ st.nodes ∨ (c ++ "_reference") ∉ st.nodes ∨
    (c ++ "_cage") ∉ st.nodes ∨ (c ++ "_folder") ∉ st.folders) Iff.rfl

/-- The state after the pre-validation and post-validation import parameter
updates of update_network. -/

def stPrepared (st : NetState) : NetState :=
  { st with
    tempRetopoFile := st.retopoSourcePath,
    tempReferenceFile := st.referenceSourcePath,
    tempRetopoIsFbx := is_path_fbx st.retopoSourcePath,
    tempReferenceIsFbx := is_path_fbx st.referenceSourcePath,
    mainRetopoFile := st.retopoSourcePath,
    mainReferenceFile := st.referenceSourcePath }

/-- Hypotheses under which update_network runs to completion: the persisted
prim-group string is non-empty, well formed and duplicate-free, the new
group list is well formed and duplicate-free, validation succeeds, every
stale bundle is fully present in the graph, every new bundle name is fresh,
and every surviving name still has its display buttons. -/

structure UpdateReady (st : NetState) (rg fg : List String) : Prop where
  hne : st.primGroups ≠ ""
  hval : (primitive_groups_match rg fg).1 = true
  hold_good : goodNames (curList st.primGroups)
  hold_nodup : (curList st.primGroups).Nodup
  hnew_good : goodNames rg
  hnew_nodup : rg.Nodup
  hremove : ∀ c ∈ removalCandidates st rg, groupPieces st c
  hadd : ∀ c ∈ additionCandidates st rg, groupAbsent st c
  hcb : ∀ n ∈ rg, n ∈ curList st.primGroups →
    (lookupAssoc st.callbacks n).isSome = true

/-! ### Concrete example data used by the claim witnesses and
counterexamples -/

/-- A one-point position donor. -/

def c1posDonor : Mesh := ⟨[(1, 2, 3)], [[0]], []⟩

/-- A two-point topology donor sharing the first point. -/

def c1topoDonor : Mesh := ⟨[(1, 2, 3), (7, 7, 7)], [[0, 1]], []⟩

/-- A cage branch mesh with one primitive. -/

def c5cage : Mesh := ⟨[(5, 5, 5)], [[0]], ["/mat/cage"]⟩

/-- A triangulated retopo branch mesh with two primitives. -/

def c5retopo : Mesh := ⟨[(9, 9, 9), (8, 8, 8)], [[0], [1]], ["/mat/retopo"]⟩

/-- Helper for stating results about the outcome of update_network: the
callback payload of one group in the result state, when the update
succeeded. -/

def callbacksOfResult (r : Except UErr NetState) (k : String) :
    Option (Option (List String)) :=
  match r with
  | .ok st => some (lookupAssoc st.callbacks k)
  | .error _ => none

/-- Helper: did the update succeed. -/

def exceptIsOk (r : Except UErr NetState) : Bool :=
  match r with
  | .ok _ => true
  | .error _ => false

/-- A control state whose persisted prim-group string is empty. -/

def stC2 : NetState :=
  { location := "/obj", retopoSourcePath := "rt.bgeo",
    referenceSourcePath := "rf.bgeo", primGroups := "",
    nodes := [], folders := [], retopoAgg := [], referenceAgg := [],
    cageAgg := [], callbacks := [], groupData := [],
    tempRetopoFile := "", tempReferenceFile := "", tempRetopoIsFbx := false,
    tempReferenceIsFbx := false, mainRetopoFile := "rt.bgeo",
    mainReferenceFile := "rf.bgeo" }

/-- A fully built network over the partitions a and b. -/

def stC2w : NetState :=
  { location := "/obj", retopoSourcePath := "rt.bgeo",
    referenceSourcePath := "rf.bgeo", primGroups := "a b",
    nodes := ["a_retopo", "a_reference", "a_cage",
      "b_retopo", "b_reference", "b_cage"],
    folders := ["a_folder", "b_folder"],
    retopoAgg := ["/obj/a_retopo", "/obj/b_retopo"],
    referenceAgg := ["/obj/a_reference", "/obj/b_reference"],
    cageAgg := ["/obj/a_cage", "/obj/b_cage"],
    callbacks := [("a", ["a", "b"]), ("b", ["a", "b"])],
    groupData := [("a", 3), ("b", 4)],
    tempRetopoFile := "", tempReferenceFile := "", tempRetopoIsFbx := false,
    tempReferenceIsFbx := false, mainRetopoFile := "rt.bgeo",
    mainReferenceFile := "rf.bgeo" }

/-- A fully built network over a and b, for the frame-effect claim. -/

def stC3 : NetState :=
  { location := "/obj", retopoSourcePath := "rt.bgeo",
    referenceSourcePath := "rf.bgeo", primGroups := "a b",
    nodes := ["a_retopo", "a_reference", "a_cage",
      "b_retopo", "b_reference", "b_cage"],
    folders := ["a_folder", "b_folder"],
    retopoAgg := ["/obj/a_retopo", "/obj/b_retopo"],
    referenceAgg := ["/obj/a_reference", "/obj/b_reference"],
    cageAgg := ["/obj/a_cage", "/obj/b_cage"],
    callbacks := [("a", ["a", "b"]), ("b", ["a", "b"])],
    groupData := [("a", 7), ("b", 9)],
    tempRetopoFile := "", tempReferenceFile := "", tempRetopoIsFbx := false,
    tempReferenceIsFbx := false, mainRetopoFile := "rt.bgeo",
    mainReferenceFile := "rf.bgeo" }

/-- A fully built network over a and b, witness input for the frame claim. -/

def stC3w : NetState :=
  { location := "/obj", retopoSourcePath := "rt.bgeo",
    referenceSourcePath := "rf.bgeo", primGroups := "a b",
    nodes := ["a_retopo", "a_reference", "a_cage",
      "b_retopo", "b_reference", "b_cage"],
    folders := ["a_folder", "b_folder"],
    retopoAgg := ["/obj/a_retopo", "/obj/b_retopo"],
    referenceAgg := ["/obj/a_reference", "/obj/b_reference"],
    cageAgg := ["/obj/a_cage", "/obj/b_cage"],
    callbacks := [("a", ["a", "b"]), ("b", ["a", "b"])],
    groupData := [("a", 11), ("b", 12)],
    tempRetopoFile := "", tempReferenceFile := "", tempRetopoIsFbx := false,
    tempReferenceIsFbx := false, mainRetopoFile := "rt.bgeo",
    mainReferenceFile := "rf.bgeo" }

/-- A network over a and b whose a_retopo node was destroyed externally. -/

def stC6 : NetState :=
  { location := "/obj", retopoSourcePath := "rt.bgeo",
    referenceSourcePath := "rf.bgeo", primGroups := "a b",
    nodes := ["a_reference", "a_cage", "b_retopo", "b_reference", "b_cage"],
    folders := ["a_folder", "b_folder"],
    retopoAgg := ["/obj/a_retopo", "/obj/b_retopo"],
    referenceAgg := ["/obj/a_reference", "/obj/b_reference"],
    cageAgg := ["/obj/a_cage", "/obj/b_cage"],
    callbacks := [("a", ["a", "b"]), ("b", ["a", "b"])],
    groupData := [("a", 1), ("b", 2)],
    tempRetopoFile := "", tempReferenceFile := "", tempRetopoIsFbx := false,
    tempReferenceIsFbx := false, mainRetopoFile := "rt.bgeo",
    mainReferenceFile := "rf.bgeo" }

/-- A network over a and b whose a_cage node was destroyed externally. -/

def stC6w : NetState :=
  { location := "/obj", retopoSourcePath := "rt.bgeo",
    referenceSourcePath := "rf.bgeo", primGroups := "a b",
    nodes := ["a_retopo", "a_reference", "b_retopo", "b_reference", "b_cage"],
    folders := ["a_folder", "b_folder"],
    retopoAgg := ["/obj/a_retopo", "/obj/b_retopo"],
    referenceAgg := ["/obj/a_reference", "/obj/b_reference"],
    cageAgg := ["/obj/a_cage", "/obj/b_cage"],
    callbacks := [("a", ["a", "b"]), ("b", ["a", "b"])],
    groupData := [("a", 1), ("b", 2)],
    tempRetopoFile := "", tempReferenceFile := "", tempRetopoIsFbx := false,
    tempReferenceIsFbx := false, mainRetopoFile := "rt.bgeo",
    mainReferenceFile := "rf.bgeo" }

/-- A healthy one-partition network, input for the validation-failure
claim. -/

def stC7 : NetState :=
  { location := "/obj", retopoSourcePath := "rt.bgeo",
    referenceSourcePath := "rf.bgeo", primGroups := "a",
    nodes := ["a_retopo", "a_reference", "a_cage"],
    folders := ["a_folder"],
    retopoAgg := ["/obj/a_retopo"], referenceAgg := ["/obj/a_reference"],
    cageAgg := ["/obj/a_cage"],
    callbacks := [("a", ["a"])], groupData := [("a", 5)],
    tempRetopoFile := "", tempReferenceFile := "", tempRetopoIsFbx := false,
    tempReferenceIsFbx := false, mainRetopoFile := "rt.bgeo",
    mainReferenceFile := "rf.bgeo" }

/-- An untouched scene, input for the create_network abort claim. -/

def sc8 : ObjScene :=
  { matNodes := [], cageMaterialParm := "", referenceMaterialParm := "",
    sourceNetworks := [], bakeNodes := [], outputNodes := [],
    scenePrimGroups := "", networkExists := false }

theorem pySplitChars_ne_nil (l : List Char) : pySplitChars l ≠ [] := by
  cases l with
  | nil => simp [pySplitChars]
  | cons c rest =>
    by_cases h : c = ' ' <;> simp [pySplitChars, h]

theorem headD_cons_tail {α : Type} (l : List α) (d : α) (h : l ≠ []) :
    l.headD d :: l.tail = l := by
  cases l with
  | nil => exact absurd rfl h
  | cons a t => rfl

theorem pySplitChars_append (p l : List Char) (hp : ' ' ∉ p) :
    pySplitChars (p ++ l) =
      (p ++ (pySplitChars l).headD []) :: (pySplitChars l).tail := by
  induction p with
  | nil =>
    simp only [List.nil_append]
    exact (headD_cons_tail (pySplitChars l) [] (pySplitChars_ne_nil l)).symm
  | cons c p ih =>
    have hc : c ≠ ' ' := by
      intro h
      exact hp (h ▸ List.mem_cons_self c p)
    have hp2 : ' ' ∉ p := fun h => hp (List.mem_cons_of_mem c h)
    simp only [List.cons_append, pySplitChars, if_neg hc, List.append_eq]
    rw [ih hp2]
    simp

theorem pySplitChars_pyJoinChars (ps : List (List Char)) (hne : ps ≠ [])
    (h : ∀ p ∈ ps, ' ' ∉ p) : pySplitChars (pyJoinChars ps) = ps := by
  induction ps with
  | nil => exact absurd rfl hne
  | cons p ps ih =>
    cases ps with
    | nil =>
      have hp : ' ' ∉ p := h p (List.mem_cons_self p [])
      have : pyJoinChars [p] = p ++ [] := by simp [pyJoinChars]
      rw [this, pySplitChars_append p [] hp]
      simp [pySplitChars]
    | cons q qs =>
      have hp : ' ' ∉ p := h p (List.mem_cons_self p (q :: qs))
      have hrest : ∀ r ∈ q :: qs, ' ' ∉ r := fun r hr =>
        h r (List.mem_cons_of_mem p hr)
      have hjoin : pyJoinChars (p :: q :: qs) = p ++ (' ' :: pyJoinChars (q :: qs)) := by
        simp [pyJoinChars]
      rw [hjoin, pySplitChars_append p _ hp]
      have hsp : pySplitChars (' ' :: pyJoinChars (q :: qs)) =
          [] :: pySplitChars (pyJoinChars (q :: qs)) := by
        simp [pySplitChars]
      rw [hsp]
      have ihq := ih (by simp) hrest
      simp [ihq]

theorem string_mk_data (s : String) : String.mk s.data = s := rfl

theorem string_data_mk (l : List Char) : (String.mk l).data = l := rfl

theorem string_data_append (a b : String) : (a ++ b).data = a.data ++ b.data := by
  cases a; cases b; rfl

theorem string_ne_empty_iff_data (s : String) : s ≠ "" ↔ s.data ≠ [] := by
  cases s with
  | mk data =>
    constructor
    · intro h hd
      simp only [string_data_mk] at hd
      subst hd
      exact h rfl
    · intro h hs
      apply h
      rw [hs]

theorem pySplit_pyJoin (l : List String) (hne : l ≠ [])
    (h : ∀ x ∈ l, ' ' ∉ x.data) : pySplit (pyJoin l) = l := by
  unfold pySplit pyJoin
  rw [string_data_mk]
  rw [pySplitChars_pyJoinChars (l.map String.data)
    (by simpa using hne)
    (by
      intro p hp
      obtain ⟨x, hx, hxd⟩ := List.mem_map.mp hp
      exact hxd ▸ h x hx)]
  rw [List.map_map]
  have : (String.mk ∘ String.data) = id := by
    funext s
    exact string_mk_data s
  rw [this, List.map_id]

theorem mem_insertName (a x : String) (l : List String) :
    a ∈ insertName x l ↔ a = x ∨ a ∈ l := by
  induction l with
  | nil => simp [insertName]
  | cons y ys ih =>
    by_cases h : pyLt x y = true
    · simp [insertName, h]
    · simp only [insertName, if_neg h, List.mem_cons, ih]
      tauto

theorem length_insertName (x : String) (l : List String) :
    (insertName x l).length = l.length + 1 := by
  induction l with
  | nil => rfl
  | cons y ys ih =>
    by_cases h : pyLt x y = true <;> simp [insertName, h, ih]

theorem nodup_insertName (x : String) (l : List String) (hx : x ∉ l)
    (h : l.Nodup) : (insertName x l).Nodup := by
  induction l with
  | nil => simp [insertName]
  | cons y ys ih =>
    have hxy : x ≠ y := fun he => hx (he ▸ List.mem_cons_self y ys)
    have hxys : x ∉ ys := fun hm => hx (List.mem_cons_of_mem y hm)
    have hyys : y ∉ ys := (List.nodup_cons.mp h).1
    have hys : ys.Nodup := (List.nodup_cons.mp h).2
    by_cases hc : pyLt x y = true
    · simp only [insertName, if_pos hc, List.nodup_cons]
      refine ⟨?_, hyys, hys⟩
      simp [hxy, hxys]
    · simp only [insertName, if_neg hc, List.nodup_cons]
      refine ⟨?_, ih hxys hys⟩
      rw [mem_insertName]
      push_neg
      exact ⟨fun he => hxy he.symm, hyys⟩

theorem mem_sortNames (a : String) (l : List String) :
    a ∈ sortNames l ↔ a ∈ l := by
  induction l with
  | nil => simp [sortNames]
  | cons x xs ih =>
    simp [sortNames, mem_insertName, ih]

theorem length_sortNames (l : List String) :
    (sortNames l).length = l.length := by
  induction l with
  | nil => rfl
  | cons x xs ih => simp [sortNames, length_insertName, ih]

theorem nodup_sortNames (l : List String) (h : l.Nodup) : (sortNames l).Nodup := by
  induction l with
  | nil => simp [sortNames]
  | cons x xs ih =>
    have hx : x ∉ xs := (List.nodup_cons.mp h).1
    have hxs : xs.Nodup := (List.nodup_cons.mp h).2
    exact nodup_insertName x (sortNames xs)
      (fun hm => hx ((mem_sortNames x xs).mp hm)) (ih hxs)

theorem sortNames_ne_nil (l : List String) (h : l ≠ []) : sortNames l ≠ [] := by
  intro hs
  apply h
  have := length_sortNames l
  rw [hs] at this
  exact List.length_eq_zero.mp this.symm

/-! ### Disambiguation of constructed node names

Bake group nodes are located by constructed names of the form
name ++ "_retopo" / "_reference" / "_cage"; the control folder is
name ++ "_folder".  Appending a fixed suffix is injective in the name, and
names built with different suffixes from this set never collide. -/

theorem string_eq_of_data_eq (a b : String) (h : a.data = b.data) : a = b := by
  cases a; cases b
  simp only [string_data_mk] at h
  rw [h]

theorem append_suffix_inj (a b s : String) (h : a ++ s = b ++ s) : a = b := by
  have h2 : a.data ++ s.data = b.data ++ s.data := by
    rw [← string_data_append, ← string_data_append, h]
  exact string_eq_of_data_eq a b (List.append_cancel_right h2)

theorem append_prefix_inj (a s t : String) (h : a ++ s = a ++ t) : s = t := by
  have h2 : a.data ++ s.data = a.data ++ t.data := by
    rw [← string_data_append, ← string_data_append, h]
  exact string_eq_of_data_eq s t (List.append_cancel_left h2)

theorem append_retopo_ne_reference (a b : String) :
    a ++ "_retopo" ≠ b ++ "_reference" := by
  intro h
  have h2 : (a ++ "_retopo").data.reverse = (b ++ "_reference").data.reverse := by rw [h]
  rw [string_data_append, string_data_append, List.reverse_append,
    List.reverse_append] at h2
  have e1 : ("_retopo".data).reverse = 'o' :: ['p', 'o', 't', 'e', 'r', '_'] := by decide
  have e2 : ("_reference".data).reverse =
      'e' :: ['c', 'n', 'e', 'r', 'e', 'f', 'e', 'r', '_'] := by decide
  rw [e1, e2] at h2
  simp only [List.cons_append] at h2
  injection h2 with hh _
  exact absurd hh (by decide)

theorem append_retopo_ne_cage (a b : String) :
    a ++ "_retopo" ≠ b ++ "_cage" := by
  intro h
  have h2 : (a ++ "_retopo").data.reverse = (b ++ "_cage").data.reverse := by rw [h]
  rw [string_data_append, string_data_append, List.reverse_append,
    List.reverse_append] at h2
  have e1 : ("_retopo".data).reverse = 'o' :: ['p', 'o', 't', 'e', 'r', '_'] := by decide
  have e2 : ("_cage".data).reverse = 'e' :: ['g', 'a', 'c', '_'] := by decide
  rw [e1, e2] at h2
  simp only [List.cons_append] at h2
  injection h2 with hh _
  exact absurd hh (by decide)

theorem append_reference_ne_cage (a b : String) :
    a ++ "_reference" ≠ b ++ "_cage" := by
  intro h
  have h2 : (a ++ "_reference").data.reverse = (b ++ "_cage").data.reverse := by rw [h]
  rw [string_data_append, string_data_append, List.reverse_append,
    List.reverse_append] at h2
  have e1 : ("_reference".data).reverse =
      'e' :: 'c' :: ['n', 'e', 'r', 'e', 'f', 'e', 'r', '_'] := by decide
  have e2 : ("_cage".data).reverse = 'e' :: 'g' :: ['a', 'c', '_'] := by decide
  rw [e1, e2] at h2
  simp only [List.cons_append] at h2
  injection h2 with _ ht
  injection ht with hh _
  exact absurd hh (by decide)

theorem wranglePosAux_shift (a : V3) (donor : List V3) (i : Nat) (l : List V3) :
    wranglePosAux (a :: donor) (i + 1) l = wranglePosAux donor i l := by
  induction l generalizing i with
  | nil => rfl
  | cons x xs ih =>
    simp only [wranglePosAux, ih]
    rfl

theorem wranglePosAux_nil (i : Nat) (l : List V3) :
    wranglePosAux [] i l = List.replicate l.length vzero := by
  induction l generalizing i with
  | nil => rfl
  | cons x xs ih =>
    simp [wranglePosAux, ih, List.replicate_succ]

theorem wranglePosAux_spec (donor : List V3) (l : List V3) :
    wranglePosAux donor 0 l =
      donor.take l.length ++ List.replicate (l.length - donor.length) vzero := by
  induction donor generalizing l with
  | nil => simp [wranglePosAux_nil]
  | cons d ds ih =>
    cases l with
    | nil => simp [wranglePosAux]
    | cons x xs =>
      simp only [wranglePosAux, List.getD_cons_zero, wranglePosAux_shift, ih,
        List.length_cons, List.take_succ_cons, List.cons_append,
        Nat.succ_sub_succ]

theorem goodNames_sortNames (l : List String) (h : goodNames l) :
    goodNames (sortNames l) := fun x hx => h x ((mem_sortNames x l).mp hx)

theorem pyJoin_ne_empty (l : List String) (hne : l ≠ []) (h : goodNames l) :
    pyJoin l ≠ "" := by
  rw [string_ne_empty_iff_data]
  unfold pyJoin
  rw [string_data_mk]
  cases l with
  | nil => exact absurd rfl hne
  | cons x xs =>
    cases xs with
    | nil =>
      simp only [List.map, pyJoinChars]
      have hx := (h x (List.mem_cons_self x [])).1
      rw [string_ne_empty_iff_data] at hx
      exact hx
    | cons y ys =>
      simp only [List.map, pyJoinChars]
      simp

theorem curList_pyJoin (l : List String) (h : goodNames l) :
    curList (pyJoin l) = l := by
  cases l with
  | nil => rfl
  | cons x xs =>
    unfold curList get_current_prim_groups
    rw [if_neg (pyJoin_ne_empty (x :: xs) (by simp) h)]
    simp only [Option.getD_some]
    exact pySplit_pyJoin (x :: xs) (by simp) (fun z hz => (h z hz).2)

theorem curList_add (s n : String) (hg : goodNames (curList s)) (hn : goodName n) :
    curList (add_to_current_prim_groups s n) =
      sortNames (if n ∈ curList s then curList s else curList s ++ [n]) := by
  have hrw : add_to_current_prim_groups s n =
      pyJoin (sortNames (if n ∈ curList s then curList s else curList s ++ [n])) := rfl
  rw [hrw]
  by_cases hmem : n ∈ curList s
  · simp only [if_pos hmem]
    exact curList_pyJoin _ (goodNames_sortNames _ hg)
  · simp only [if_neg hmem]
    refine curList_pyJoin _ (goodNames_sortNames _ ?_)
    intro x hx
    rcases List.mem_append.mp hx with hx | hx
    · exact hg x hx
    · rw [List.mem_singleton.mp hx]
      exact hn

theorem curList_remove (s n : String) (hg : goodNames (curList s)) :
    curList (remove_from_current_prim_groups s n) =
      if n ∈ curList s then sortNames ((curList s).erase n) else curList s := by
  unfold remove_from_current_prim_groups
  cases hc : get_current_prim_groups s with
  | none =>
    have hcl : curList s = [] := by simp [curList, hc]
    rw [hcl]
    simp [hcl]
  | some l =>
    have hcl : curList s = l := by simp [curList, hc]
    rw [hcl]
    show curList (if n ∈ l then set_current_prim_groups (l.erase n) else s) = _
    by_cases hmem : n ∈ l
    · rw [if_pos hmem, if_pos hmem]
      unfold set_current_prim_groups
      refine curList_pyJoin _ (goodNames_sortNames _ ?_)
      intro x hx
      exact hg x (by rw [hcl]; exact List.erase_subset _ _ hx)
    · rw [if_neg hmem, if_neg hmem, hcl]

theorem filter_objMergeParms (start : Nat) (entries : List String) :
    (objMergeParmsFrom start entries).filter
        (fun p => strContains p.name "objpath") =
      objpathParmsFrom start entries := by
  induction entries generalizing start with
  | nil => rfl
  | cons e rest ih =>
    have h1 : strContains "enable" "objpath" = false := by decide
    have h2 : strContains "objpath" "objpath" = true := by decide
    have h3 : strContains "group" "objpath" = false := by decide
    have h4 : strContains "expand" "objpath" = false := by decide
    simp only [objMergeParmsFrom, objpathParmsFrom, List.filter_cons, h1, h2, h3, h4,
      ih, Bool.false_eq_true, if_false, if_true]

theorem objpathParms_idx (j : Nat) (l : List String) (p : FlatParm)
    (hp : p ∈ objpathParmsFrom (4 * j) l) : ∃ m, j ≤ m ∧ p.idx = 4 * m + 1 := by
  induction l generalizing j with
  | nil => simp [objpathParmsFrom] at hp
  | cons e rest ih =>
    simp only [objpathParmsFrom, List.mem_cons] at hp
    rcases hp with hp | hp
    · exact ⟨j, le_refl j, by rw [hp]⟩
    · have h4 : 4 * j + 4 = 4 * (j + 1) := by ring
      rw [h4] at hp
      obtain ⟨m, hm, hi⟩ := ih (j + 1) hp
      exact ⟨m, Nat.le_of_succ_le hm, hi⟩

theorem find_objpath_eraseIdx (value : String) (k : Nat) (entries : List String) :
    (match (objpathParmsFrom (4 * k) entries).find?
        (fun p => strContains p.value value) with
      | some p => entries.eraseIdx (p.idx / 4 - k)
      | none => entries) = removeFirstContaining value entries := by
  induction entries generalizing k with
  | nil => rfl
  | cons e rest ih =>
    by_cases hc : strContains e value = true
    · have hfind : (objpathParmsFrom (4 * k) (e :: rest)).find?
          (fun p => strContains p.value value) = some ⟨4 * k + 1, "objpath", e⟩ := by
        simp [objpathParmsFrom, List.find?, hc]
      rw [hfind]
      have hidx : (4 * k + 1) / 4 - k = 0 := by
        rw [Nat.mul_add_div (by norm_num)]
        simp
      show (e :: rest).eraseIdx ((4 * k + 1) / 4 - k) = _
      rw [hidx]
      simp [removeFirstContaining, hc]
    · have hb : strContains e value = false := by
        cases hb2 : strContains e value
        · rfl
        · exact absurd hb2 hc
      have h4 : 4 * k + 4 = 4 * (k + 1) := by ring
      have hfind : (objpathParmsFrom (4 * k) (e :: rest)).find?
          (fun p => strContains p.value value) =
          (objpathParmsFrom (4 * (k + 1)) rest).find?
            (fun p => strContains p.value value) := by
        simp only [objpathParmsFrom, List.find?, hb, h4]
      rw [hfind]
      have ihk := ih (k + 1)
      cases hfind2 : (objpathParmsFrom (4 * (k + 1)) rest).find?
          (fun p => strContains p.value value) with
      | none =>
        rw [hfind2] at ihk
        simp only [removeFirstContaining, hb, Bool.false_eq_true, if_false]
        rw [← ihk]
      | some p =>
        rw [hfind2] at ihk
        have ihk2 : rest.eraseIdx (p.idx / 4 - (k + 1)) =
            removeFirstContaining value rest := ihk
        obtain ⟨m, hm, hi⟩ :=
          objpathParms_idx (k + 1) rest p (List.mem_of_find?_eq_some hfind2)
        have hdiv : p.idx / 4 = m := by
          rw [hi, Nat.mul_add_div (by norm_num)]
          simp
        have hsub : p.idx / 4 - k = (p.idx / 4 - (k + 1)) + 1 := by
          rw [hdiv]
          omega
        show (e :: rest).eraseIdx (p.idx / 4 - k) = _
        rw [hsub, List.eraseIdx_cons_succ]
        simp only [removeFirstContaining, hb, Bool.false_eq_true, if_false]
        rw [ihk2]

/-- Refinement of the stride arithmetic: remove_from_multiparm with the
objpath filter removes exactly the first entry containing the value. -/

theorem remove_from_multiparm_spec (entries : List String) (value : String) :
    remove_from_multiparm entries "objpath" value =
      removeFirstContaining value entries := by
  unfold remove_from_multiparm multiParmInstances
  have h0 : (0 : Nat) = 4 * 0 := by norm_num
  rw [filter_objMergeParms, h0]
  have h := find_objpath_eraseIdx value 0 entries
  simpa using h

theorem removeFirstContaining_length (value : String) (entries : List String)
    (h : ∃ e ∈ entries, strContains e value = true) :
    (removeFirstContaining value entries).length + 1 = entries.length := by
  induction entries with
  | nil => simp at h
  | cons e rest ih =>
    by_cases hc : strContains e value = true
    · simp [removeFirstContaining, hc]
    · obtain ⟨x, hx, hxc⟩ := h
      rcases List.mem_cons.mp hx with hx | hx
      · exact absurd (hx ▸ hxc) hc
      · simp only [removeFirstContaining, hc, Bool.false_eq_true, if_false,
          List.length_cons]
        rw [ih ⟨x, hx, hxc⟩]

theorem removeFirstContaining_sublist (value : String) (entries : List String) :
    (removeFirstContaining value entries).Sublist entries := by
  induction entries with
  | nil => simp [removeFirstContaining]
  | cons e rest ih =>
    by_cases hc : strContains e value = true
    · simp only [removeFirstContaining, hc, if_true]
      exact List.sublist_cons_self e rest
    · simp only [removeFirstContaining, hc, Bool.false_eq_true, if_false]
      exact List.Sublist.cons₂ e ih

theorem mem_removeFirstContaining (value e : String) (entries : List String)
    (he : e ∈ entries) (hne : strContains e value = false) :
    e ∈ removeFirstContaining value entries := by
  induction entries with
  | nil => simp at he
  | cons x rest ih =>
    by_cases hc : strContains x value = true
    · simp only [removeFirstContaining, hc, if_true]
      rcases List.mem_cons.mp he with hh | hh
      · exact absurd (hh ▸ hne) (by simp [hc])
      · exact hh
    · simp only [removeFirstContaining, hc, Bool.false_eq_true, if_false]
      rcases List.mem_cons.mp he with hh | hh
      · exact hh ▸ List.mem_cons_self x _
      · exact List.mem_cons_of_mem x (ih hh)

/-! ### Support lemmas for the reconciler proofs -/

theorem retopo_name_inj (a b : String) (h : a ++ "_retopo" = b ++ "_retopo") :
    a = b := append_suffix_inj a b "_retopo" h

theorem reference_name_inj (a b : String) (h : a ++ "_reference" = b ++ "_reference") :
    a = b := append_suffix_inj a b "_reference" h

theorem cage_name_inj (a b : String) (h : a ++ "_cage" = b ++ "_cage") :
    a = b := append_suffix_inj a b "_cage" h

theorem folder_name_inj (a b : String) (h : a ++ "_folder" = b ++ "_folder") :
    a = b := append_suffix_inj a b "_folder" h

theorem ref_ne_retopo_same (c : String) : c ++ "_reference" ≠ c ++ "_retopo" :=
  fun h => absurd (append_prefix_inj c _ _ h) (by decide)

theorem cage_ne_retopo_same (c : String) : c ++ "_cage" ≠ c ++ "_retopo" :=
  fun h => absurd (append_prefix_inj c _ _ h) (by decide)

theorem cage_ne_reference_same (c : String) : c ++ "_cage" ≠ c ++ "_reference" :=
  fun h => absurd (append_prefix_inj c _ _ h) (by decide)

theorem lookupAssoc_setAssoc_eq {α : Type} (l : List (String × α)) (k : String)
    (v : α) : lookupAssoc (setAssoc l k v) k = some v := by
  induction l with
  | nil => simp [setAssoc, lookupAssoc, List.find?]
  | cons p t ih =>
    by_cases h : p.1 == k
    · simp [setAssoc, h, lookupAssoc, List.find?]
    · simp only [setAssoc, h, Bool.false_eq_true, if_false]
      simp only [lookupAssoc, List.find?, h] at ih ⊢
      exact ih

theorem lookupAssoc_setAssoc_ne {α : Type} (l : List (String × α)) (k k2 : String)
    (v : α) (h : k2 ≠ k) : lookupAssoc (setAssoc l k v) k2 = lookupAssoc l k2 := by
  have hkk : (k == k2) = false := by
    simp only [beq_eq_false_iff_ne]
    exact fun he => h he.symm
  induction l with
  | nil => simp [setAssoc, lookupAssoc, List.find?, hkk]
  | cons p t ih =>
    by_cases hp : p.1 == k
    · have hp2 : (p.1 == k2) = false := by
        simp only [beq_eq_false_iff_ne]
        intro he
        rw [← he] at h
        exact h (by simpa using hp)
      simp [setAssoc, hp, lookupAssoc, List.find?, hkk, hp2]
    · simp only [setAssoc, hp, Bool.false_eq_true, if_false]
      simp only [lookupAssoc, List.find?] at ih ⊢
      cases hq : (p.1 == k2) with
      | true => simp [hq]
      | false =>
        simp only [hq]
        exact ih

theorem lookupAssoc_filter_ne {α : Type} (l : List (String × α)) (c k : String)
    (h : k ≠ c) :
    lookupAssoc (l.filter (fun p => p.1 != c)) k = lookupAssoc l k := by
  induction l with
  | nil => rfl
  | cons p t ih =>
    by_cases hp : p.1 = c
    · have h1 : (p.1 != c) = false := by simp [hp]
      have h2 : (p.1 == k) = false := by
        simp only [beq_eq_false_iff_ne]
        rw [hp]
        exact fun he => h he.symm
      simp only [List.filter_cons, h1, Bool.false_eq_true, if_false]
      simp only [lookupAssoc, List.find?, h2]
      exact ih
    · have h1 : (p.1 != c) = true := by simp [hp]
      simp only [List.filter_cons, h1, if_true]
      simp only [lookupAssoc, List.find?]
      cases hq : (p.1 == k) with
      | true => simp
      | false => exact ih

theorem lookupAssoc_isSome_of_eq {α : Type} (l : List (String × α)) (k : String)
    (v : α) (h : lookupAssoc l k = some v) : (lookupAssoc l k).isSome = true := by
  rw [h]
  rfl

theorem removeCandidate_ok (st : NetState) (c : String) (h : groupPieces st c) :
    removeCandidate st c = .ok { st with
      retopoAgg :=
        removeFirstContaining (st.location ++ "/" ++ c ++ "_retopo") st.retopoAgg,
      referenceAgg :=
        removeFirstContaining (st.location ++ "/" ++ c ++ "_reference") st.referenceAgg,
      cageAgg :=
        removeFirstContaining (st.location ++ "/" ++ c ++ "_cage") st.cageAgg,
      nodes := ((st.nodes.erase (c ++ "_retopo")).erase
        (c ++ "_reference")).erase (c ++ "_cage"),
      groupData := st.groupData.filter (fun p => p.1 != c),
      primGroups := remove_from_current_prim_groups st.primGroups c,
      folders := st.folders.erase (c ++ "_folder"),
      callbacks := st.callbacks.filter (fun p => p.1 != c) } := by
  obtain ⟨h1, h2, h3, h4⟩ := h
  have m2 : (c ++ "_reference") ∈ st.nodes.erase (c ++ "_retopo") :=
    (List.mem_erase_of_ne (ref_ne_retopo_same c)).mpr h2
  have m3 : (c ++ "_cage") ∈ (st.nodes.erase (c ++ "_retopo")).erase
      (c ++ "_reference") :=
    (List.mem_erase_of_ne (cage_ne_reference_same c)).mpr
      ((List.mem_erase_of_ne (cage_ne_retopo_same c)).mpr h3)
  simp only [removeCandidate, destroyNode, remove_from_multiparm_spec,
    if_pos h1, if_pos m2, if_pos m3, if_pos h4]

theorem addCandidate_ok (allNames : List String) (st : NetState) (c : String)
    (h : groupAbsent st c) :
    addCandidate allNames st c = .ok { st with
      nodes := ((st.nodes ++ [c ++ "_retopo"]) ++ [c ++ "_reference"]) ++ [c ++ "_cage"],
      folders := st.folders ++ [c ++ "_folder"],
      callbacks := setAssoc st.callbacks c allNames,
      groupData := setAssoc st.groupData c 0,
      retopoAgg := st.retopoAgg ++ [st.location ++ "/" ++ c ++ "_retopo"],
      referenceAgg := st.referenceAgg ++ [st.location ++ "/" ++ c ++ "_reference"],
      cageAgg := st.cageAgg ++ [st.location ++ "/" ++ c ++ "_cage"],
      primGroups := add_to_current_prim_groups
        (add_to_current_prim_groups st.primGroups c) c } := by
  obtain ⟨h1, h2, h3⟩ := h
  have m2 : (c ++ "_reference") ∉ st.nodes ++ [c ++ "_retopo"] := by
    intro hm
    rcases List.mem_append.mp hm with hm | hm
    · exact h2 hm
    · exact ref_ne_retopo_same c (List.mem_singleton.mp hm)
  have m3 : (c ++ "_cage") ∉ (st.nodes ++ [c ++ "_retopo"]) ++ [c ++ "_reference"] := by
    intro hm
    rcases List.mem_append.mp hm with hm | hm
    · rcases List.mem_append.mp hm with hm | hm
      · exact h3 hm
      · exact cage_ne_retopo_same c (List.mem_singleton.mp hm)
    · exact cage_ne_reference_same c (List.mem_singleton.mp hm)
  simp only [addCandidate, createNodeNamed, if_neg h1, if_neg m2, if_neg m3]

theorem removeCandidate_eq_removedState (st : NetState) (c : String)
    (h : groupPieces st c) : removeCandidate st c = .ok (removedState st c) :=
  removeCandidate_ok st c h

theorem addCandidate_eq_addedState (allNames : List String) (st : NetState)
    (c : String) (h : groupAbsent st c) :
    addCandidate allNames st c = .ok (addedState allNames st c) :=
  addCandidate_ok allNames st c h

theorem curList_remove_facts (s c : String) (hg : goodNames (curList s))
    (hn : (curList s).Nodup) :
    goodNames (curList (remove_from_current_prim_groups s c)) ∧
    (curList (remove_from_current_prim_groups s c)).Nodup ∧
    (∀ x, x ∈ curList (remove_from_current_prim_groups s c) ↔
      (x ∈ curList s ∧ x ≠ c)) := by
  rw [curList_remove s c hg]
  by_cases hc : c ∈ curList s
  · rw [if_pos hc]
    refine ⟨?_, ?_, ?_⟩
    · intro x hx
      exact hg x (List.erase_subset _ _ ((mem_sortNames x _).mp hx))
    · exact nodup_sortNames _ (hn.erase c)
    · intro x
      rw [mem_sortNames, hn.mem_erase_iff]
      tauto
  · rw [if_neg hc]
    refine ⟨hg, hn, ?_⟩
    intro x
    constructor
    · intro hx
      exact ⟨hx, fun he => hc (he ▸ hx)⟩
    · exact fun hx => hx.1

theorem curList_add_twice_facts (s c : String) (hg : goodNames (curList s))
    (hn : (curList s).Nodup) (hc : goodName c) :
    goodNames (curList (add_to_current_prim_groups
      (add_to_current_prim_groups s c) c)) ∧
    (curList (add_to_current_prim_groups
      (add_to_current_prim_groups s c) c)).Nodup ∧
    (∀ x, x ∈ curList (add_to_current_prim_groups
      (add_to_current_prim_groups s c) c) ↔ (x = c ∨ x ∈ curList s)) := by
  have h1 := curList_add s c hg hc
  have hg1 : goodNames (curList (add_to_current_prim_groups s c)) := by
    rw [h1]
    intro x hx
    rw [mem_sortNames] at hx
    by_cases hmem : c ∈ curList s
    · rw [if_pos hmem] at hx
      exact hg x hx
    · rw [if_neg hmem] at hx
      rcases List.mem_append.mp hx with hx | hx
      · exact hg x hx
      · exact (List.mem_singleton.mp hx) ▸ hc
  have hn1 : (curList (add_to_current_prim_groups s c)).Nodup := by
    rw [h1]
    by_cases hmem : c ∈ curList s
    · rw [if_pos hmem]
      exact nodup_sortNames _ hn
    · rw [if_neg hmem]
      refine nodup_sortNames _ ?_
      rw [List.nodup_append]
      exact ⟨hn, List.nodup_singleton c, by simpa using hmem⟩
  have hm1 : ∀ x, x ∈ curList (add_to_current_prim_groups s c) ↔
      (x = c ∨ x ∈ curList s) := by
    intro x
    rw [h1, mem_sortNames]
    by_cases hmem : c ∈ curList s
    · rw [if_pos hmem]
      constructor
      · exact fun hx => Or.inr hx
      · rintro (hx | hx)
        · exact hx ▸ hmem
        · exact hx
    · rw [if_neg hmem]
      simp only [List.mem_append, List.mem_singleton]
      tauto
  have hcm : c ∈ curList (add_to_current_prim_groups s c) := (hm1 c).mpr (Or.inl rfl)
  have h2 := curList_add (add_to_current_prim_groups s c) c hg1 hc
  rw [if_pos hcm] at h2
  refine ⟨?_, ?_, ?_⟩
  · rw [h2]
    intro x hx
    exact hg1 x ((mem_sortNames x _).mp hx)
  · rw [h2]
    exact nodup_sortNames _ hn1
  · intro x
    rw [h2, mem_sortNames]
    exact hm1 x

theorem removeLoop_spec (cs : List String) : ∀ (st : NetState),
    (∀ c ∈ cs, groupPieces st c) → cs.Nodup →
    goodNames (curList st.primGroups) → (curList st.primGroups).Nodup →
    ∃ st2, removeLoop st cs = .ok st2 ∧ RemovalSpec st st2 cs := by
  induction cs with
  | nil =>
    intro st _ _ hg hn
    refine ⟨st, rfl, ?_⟩
    exact {
      location_eq := rfl, retopoSourcePath_eq := rfl,
      referenceSourcePath_eq := rfl, tempRetopoFile_eq := rfl,
      tempReferenceFile_eq := rfl, tempRetopoIsFbx_eq := rfl,
      tempReferenceIsFbx_eq := rfl, mainRetopoFile_eq := rfl,
      mainReferenceFile_eq := rfl,
      mem_cur := by simp,
      good_cur := hg, nodup_cur := hn,
      nodes_sub := fun nm h => h,
      nodes_keep := fun nm h _ => h,
      folders_keep := fun f h _ => h,
      callbacks_keep := fun k _ => rfl,
      groupData_keep := fun k _ => rfl,
      retopoAgg_keep := fun e h _ => h,
      referenceAgg_keep := fun e h _ => h,
      cageAgg_keep := fun e h _ => h }
  | cons c cs ih =>
    intro st hp hnd hg hn
    have hc := hp c (List.mem_cons_self c cs)
    have hcn : c ∉ cs := (List.nodup_cons.mp hnd).1
    have hnd2 : cs.Nodup := (List.nodup_cons.mp hnd).2
    obtain ⟨hgA, hnA, hmA⟩ := curList_remove_facts st.primGroups c hg hn
    have hpieces2 : ∀ c2 ∈ cs, groupPieces (removedState st c) c2 := by
      intro c2 hc2
      have hne : c2 ≠ c := fun he => hcn (he ▸ hc2)
      obtain ⟨p1, p2, p3, p4⟩ := hp c2 (List.mem_cons_of_mem c hc2)
      refine ⟨?_, ?_, ?_, ?_⟩
      · show c2 ++ "_retopo" ∈ ((st.nodes.erase (c ++ "_retopo")).erase
          (c ++ "_reference")).erase (c ++ "_cage")
        exact (List.mem_erase_of_ne (append_retopo_ne_cage c2 c)).mpr
          ((List.mem_erase_of_ne (append_retopo_ne_reference c2 c)).mpr
            ((List.mem_erase_of_ne
              (fun he => hne (retopo_name_inj c2 c he))).mpr p1))
      · show c2 ++ "_reference" ∈ ((st.nodes.erase (c ++ "_retopo")).erase
          (c ++ "_reference")).erase (c ++ "_cage")
        exact (List.mem_erase_of_ne (append_reference_ne_cage c2 c)).mpr
          ((List.mem_erase_of_ne
              (fun he => hne (reference_name_inj c2 c he))).mpr
            ((List.mem_erase_of_ne
              (Ne.symm (append_retopo_ne_reference c c2))).mpr p2))
      · show c2 ++ "_cage" ∈ ((st.nodes.erase (c ++ "_retopo")).erase
          (c ++ "_reference")).erase (c ++ "_cage")
        exact (List.mem_erase_of_ne
            (fun he => hne (cage_name_inj c2 c he))).mpr
          ((List.mem_erase_of_ne
              (Ne.symm (append_reference_ne_cage c c2))).mpr
            ((List.mem_erase_of_ne
              (Ne.symm (append_retopo_ne_cage c c2))).mpr p3))
      · show c2 ++ "_folder" ∈ st.folders.erase (c ++ "_folder")
        exact (List.mem_erase_of_ne
          (fun he => hne (folder_name_inj c2 c he))).mpr p4
    obtain ⟨st2, hloop, hspec⟩ := ih (removedState st c) hpieces2 hnd2 hgA hnA
    refine ⟨st2, ?_, ?_⟩
    · show (match removeCandidate st c with
        | .ok st1 => removeLoop st1 cs
        | .error e => .error e) = .ok st2
      rw [removeCandidate_eq_removedState st c hc]
      exact hloop
    · exact {
        location_eq := hspec.location_eq,
        retopoSourcePath_eq := hspec.retopoSourcePath_eq,
        referenceSourcePath_eq := hspec.referenceSourcePath_eq,
        tempRetopoFile_eq := hspec.tempRetopoFile_eq,
        tempReferenceFile_eq := hspec.tempReferenceFile_eq,
        tempRetopoIsFbx_eq := hspec.tempRetopoIsFbx_eq,
        tempReferenceIsFbx_eq := hspec.tempReferenceIsFbx_eq,
        mainRetopoFile_eq := hspec.mainRetopoFile_eq,
        mainReferenceFile_eq := hspec.mainReferenceFile_eq,
        mem_cur := by
          intro x
          rw [hspec.mem_cur x]
          have := hmA x
          simp only [List.mem_cons]
          constructor
          · rintro ⟨hx, hx2⟩
            obtain ⟨hx3, hx4⟩ := this.mp hx
            exact ⟨hx3, fun hor => hor.elim hx4 hx2⟩
          · rintro ⟨hx, hx2⟩
            exact ⟨this.mpr ⟨hx, fun he => hx2 (Or.inl he)⟩,
              fun hm => hx2 (Or.inr hm)⟩,
        good_cur := hspec.good_cur,
        nodup_cur := hspec.nodup_cur,
        nodes_sub := by
          intro nm hm
          have h1 := hspec.nodes_sub nm hm
          exact List.erase_subset _ _ (List.erase_subset _ _
            (List.erase_subset _ _ h1)),
        nodes_keep := by
          intro nm hm hall
          obtain ⟨q1, q2, q3⟩ := hall c (List.mem_cons_self c cs)
          refine hspec.nodes_keep nm ?_
            (fun c2 hc2 => hall c2 (List.mem_cons_of_mem c hc2))
          show nm ∈ ((st.nodes.erase (c ++ "_retopo")).erase
            (c ++ "_reference")).erase (c ++ "_cage")
          exact (List.mem_erase_of_ne q3).mpr
            ((List.mem_erase_of_ne q2).mpr ((List.mem_erase_of_ne q1).mpr hm)),
        folders_keep := by
          intro f hf hall
          refine hspec.folders_keep f ?_
            (fun c2 hc2 => hall c2 (List.mem_cons_of_mem c hc2))
          show f ∈ st.folders.erase (c ++ "_folder")
          exact (List.mem_erase_of_ne
            (hall c (List.mem_cons_self c cs))).mpr hf,
        callbacks_keep := by
          intro k hk
          have hk1 : k ∉ cs := fun hm => hk (List.mem_cons_of_mem c hm)
          have hk2 : k ≠ c := fun he => hk (he ▸ List.mem_cons_self c cs)
          rw [hspec.callbacks_keep k hk1]
          exact lookupAssoc_filter_ne st.callbacks c k hk2,
        groupData_keep := by
          intro k hk
          have hk1 : k ∉ cs := fun hm => hk (List.mem_cons_of_mem c hm)
          have hk2 : k ≠ c := fun he => hk (he ▸ List.mem_cons_self c cs)
          rw [hspec.groupData_keep k hk1]
          exact lookupAssoc_filter_ne st.groupData c k hk2,
        retopoAgg_keep := by
          intro e he hall
          have h1 : e ∈ (removedState st c).retopoAgg :=
            mem_removeFirstContaining _ e st.retopoAgg he
              (hall c (List.mem_cons_self c cs))
          exact hspec.retopoAgg_keep e h1
            (fun c2 hc2 => hall c2 (List.mem_cons_of_mem c hc2)),
        referenceAgg_keep := by
          intro e he hall
          have h1 : e ∈ (removedState st c).referenceAgg :=
            mem_removeFirstContaining _ e st.referenceAgg he
              (hall c (List.mem_cons_self c cs))
          exact hspec.referenceAgg_keep e h1
            (fun c2 hc2 => hall c2 (List.mem_cons_of_mem c hc2)),
        cageAgg_keep := by
          intro e he hall
          have h1 : e ∈ (removedState st c).cageAgg :=
            mem_removeFirstContaining _ e st.cageAgg he
              (hall c (List.mem_cons_self c cs))
          exact hspec.cageAgg_keep e h1
            (fun c2 hc2 => hall c2 (List.mem_cons_of_mem c hc2)) }

theorem addLoop_spec (allNames : List String) (cs : List String) :
    ∀ (st : NetState),
    (∀ c ∈ cs, goodName c) →
    (∀ c ∈ cs, groupAbsent st c) → cs.Nodup →
    goodNames (curList st.primGroups) → (curList st.primGroups).Nodup →
    ∃ st2, addLoop allNames st cs = .ok st2 ∧ AdditionSpec st st2 cs allNames := by
  induction cs with
  | nil =>
    intro st _ _ _ hg hn
    refine ⟨st, rfl, ?_⟩
    exact {
      location_eq := rfl, retopoSourcePath_eq := rfl,
      referenceSourcePath_eq := rfl, tempRetopoFile_eq := rfl,
      tempReferenceFile_eq := rfl, tempRetopoIsFbx_eq := rfl,
      tempReferenceIsFbx_eq := rfl, mainRetopoFile_eq := rfl,
      mainReferenceFile_eq := rfl,
      mem_cur := by simp,
      good_cur := hg, nodup_cur := hn,
      nodes_grow := fun nm h => h,
      folders_grow := fun f h => h,
      callbacks_keep := fun k _ => rfl,
      callbacks_new := fun c h => absurd h (List.not_mem_nil c),
      groupData_keep := fun k _ => rfl,
      retopoAgg_grow := fun e h => h,
      referenceAgg_grow := fun e h => h,
      cageAgg_grow := fun e h => h }
  | cons c cs ih =>
    intro st hgood habs hnd hg hn
    have hgc : goodName c := hgood c (List.mem_cons_self c cs)
    have hac := habs c (List.mem_cons_self c cs)
    have hcn : c ∉ cs := (List.nodup_cons.mp hnd).1
    have hnd2 : cs.Nodup := (List.nodup_cons.mp hnd).2
    obtain ⟨hgA, hnA, hmA⟩ := curList_add_twice_facts st.primGroups c hg hn hgc
    have habs2 : ∀ c2 ∈ cs, groupAbsent (addedState allNames st c) c2 := by
      intro c2 hc2
      have hne : c2 ≠ c := fun he => hcn (he ▸ hc2)
      obtain ⟨a1, a2, a3⟩ := habs c2 (List.mem_cons_of_mem c hc2)
      refine ⟨?_, ?_, ?_⟩
      · show c2 ++ "_retopo" ∉
          ((st.nodes ++ [c ++ "_retopo"]) ++ [c ++ "_reference"]) ++ [c ++ "_cage"]
        intro hm
        rcases List.mem_append.mp hm with hm | hm
        · rcases List.mem_append.mp hm with hm | hm
          · rcases List.mem_append.mp hm with hm | hm
            · exact a1 hm
            · exact hne (retopo_name_inj c2 c (List.mem_singleton.mp hm))
          · exact append_retopo_ne_reference c2 c (List.mem_singleton.mp hm)
        · exact append_retopo_ne_cage c2 c (List.mem_singleton.mp hm)
      · show c2 ++ "_reference" ∉
          ((st.nodes ++ [c ++ "_retopo"]) ++ [c ++ "_reference"]) ++ [c ++ "_cage"]
        intro hm
        rcases List.mem_append.mp hm with hm | hm
        · rcases List.mem_append.mp hm with hm | hm
          · rcases List.mem_append.mp hm with hm | hm
            · exact a2 hm
            · exact append_retopo_ne_reference c c2 (List.mem_singleton.mp hm).symm
          · exact hne (reference_name_inj c2 c (List.mem_singleton.mp hm))
        · exact append_reference_ne_cage c2 c (List.mem_singleton.mp hm)
      · show c2 ++ "_cage" ∉
          ((st.nodes ++ [c ++ "_retopo"]) ++ [c ++ "_reference"]) ++ [c ++ "_cage"]
        intro hm
        rcases List.mem_append.mp hm with hm | hm
        · rcases List.mem_append.mp hm with hm | hm
          · rcases List.mem_append.mp hm with hm | hm
            · exact a3 hm
            · exact append_retopo_ne_cage c c2 (List.mem_singleton.mp hm).symm
          · exact append_reference_ne_cage c c2 (List.mem_singleton.mp hm).symm
        · exact hne (cage_name_inj c2 c (List.mem_singleton.mp hm))
    obtain ⟨st2, hloop, hspec⟩ := ih (addedState allNames st c)
      (fun c2 hc2 => hgood c2 (List.mem_cons_of_mem c hc2)) habs2 hnd2 hgA hnA
    refine ⟨st2, ?_, ?_⟩
    · show (match addCandidate allNames st c with
        | .ok st1 => addLoop allNames st1 cs
        | .error e => .error e) = .ok st2
      rw [addCandidate_eq_addedState allNames st c hac]
      exact hloop
    · exact {
        location_eq := hspec.location_eq,
        retopoSourcePath_eq := hspec.retopoSourcePath_eq,
        referenceSourcePath_eq := hspec.referenceSourcePath_eq,
        tempRetopoFile_eq := hspec.tempRetopoFile_eq,
        tempReferenceFile_eq := hspec.tempReferenceFile_eq,
        tempRetopoIsFbx_eq := hspec.tempRetopoIsFbx_eq,
        tempReferenceIsFbx_eq := hspec.tempReferenceIsFbx_eq,
        mainRetopoFile_eq := hspec.mainRetopoFile_eq,
        mainReferenceFile_eq := hspec.mainReferenceFile_eq,
        mem_cur := by
          intro x
          rw [hspec.mem_cur x]
          rw [show curList (addedState allNames st c).primGroups =
            curList (add_to_current_prim_groups
              (add_to_current_prim_groups st.primGroups c) c) from rfl]
          rw [hmA x]
          simp only [List.mem_cons]
          tauto,
        good_cur := hspec.good_cur,
        nodup_cur := hspec.nodup_cur,
        nodes_grow := by
          intro nm hm
          refine hspec.nodes_grow nm ?_
          show nm ∈
            ((st.nodes ++ [c ++ "_retopo"]) ++ [c ++ "_reference"]) ++ [c ++ "_cage"]
          exact List.mem_append_left _ (List.mem_append_left _
            (List.mem_append_left _ hm)),
        folders_grow := by
          intro f hf
          refine hspec.folders_grow f ?_
          show f ∈ st.folders ++ [c ++ "_folder"]
          exact List.mem_append_left _ hf,
        callbacks_keep := by
          intro k hk
          have hk1 : k ∉ cs := fun hm => hk (List.mem_cons_of_mem c hm)
          have hk2 : k ≠ c := fun he => hk (he ▸ List.mem_cons_self c cs)
          rw [hspec.callbacks_keep k hk1]
          exact lookupAssoc_setAssoc_ne st.callbacks c k allNames hk2,
        callbacks_new := by
          intro c2 hc2
          rcases List.mem_cons.mp hc2 with hc2 | hc2
          · subst hc2
            rw [hspec.callbacks_keep c2 hcn]
            exact lookupAssoc_setAssoc_eq st.callbacks c2 allNames
          · exact hspec.callbacks_new c2 hc2,
        groupData_keep := by
          intro k hk
          have hk1 : k ∉ cs := fun hm => hk (List.mem_cons_of_mem c hm)
          have hk2 : k ≠ c := fun he => hk (he ▸ List.mem_cons_self c cs)
          rw [hspec.groupData_keep k hk1]
          exact lookupAssoc_setAssoc_ne st.groupData c k 0 hk2,
        retopoAgg_grow := by
          intro e he
          refine hspec.retopoAgg_grow e ?_
          show e ∈ st.retopoAgg ++ [st.location ++ "/" ++ c ++ "_retopo"]
          exact List.mem_append_left _ he,
        referenceAgg_grow := by
          intro e he
          refine hspec.referenceAgg_grow e ?_
          show e ∈ st.referenceAgg ++ [st.location ++ "/" ++ c ++ "_reference"]
          exact List.mem_append_left _ he,
        cageAgg_grow := by
          intro e he
          refine hspec.cageAgg_grow e ?_
          show e ∈ st.cageAgg ++ [st.location ++ "/" ++ c ++ "_cage"]
          exact List.mem_append_left _ he }

theorem buttonsLoop_spec (allNames : List String) (ns : List String) :
    ∀ (st : NetState),
    (∀ n ∈ ns, (lookupAssoc st.callbacks n).isSome = true) →
    ∃ st2, buttonsLoop allNames st ns = .ok st2 ∧ ButtonsSpec st st2 ns allNames := by
  induction ns with
  | nil =>
    intro st _
    refine ⟨st, rfl, ?_⟩
    exact {
      location_eq := rfl, retopoSourcePath_eq := rfl,
      referenceSourcePath_eq := rfl, tempRetopoFile_eq := rfl,
      tempReferenceFile_eq := rfl, tempRetopoIsFbx_eq := rfl,
      tempReferenceIsFbx_eq := rfl, mainRetopoFile_eq := rfl,
      mainReferenceFile_eq := rfl, primGroups_eq := rfl, nodes_eq := rfl,
      folders_eq := rfl, retopoAgg_eq := rfl, referenceAgg_eq := rfl,
      cageAgg_eq := rfl, groupData_eq := rfl,
      callbacks_keep := fun k _ => rfl,
      callbacks_set := fun n h => absurd h (List.not_mem_nil n) }
  | cons n ns ih =>
    intro st hsome
    have hn := hsome n (List.mem_cons_self n ns)
    obtain ⟨v, hv⟩ := Option.isSome_iff_exists.mp hn
    have hsome2 : ∀ n2 ∈ ns,
        (lookupAssoc (setAssoc st.callbacks n allNames) n2).isSome = true := by
      intro n2 hn2
      by_cases he : n2 = n
      · subst he
        rw [lookupAssoc_setAssoc_eq]
        rfl
      · rw [lookupAssoc_setAssoc_ne st.callbacks n n2 allNames he]
        exact hsome n2 (List.mem_cons_of_mem n hn2)
    obtain ⟨st2, hloop, hspec⟩ :=
      ih { st with callbacks := setAssoc st.callbacks n allNames } hsome2
    refine ⟨st2, ?_, ?_⟩
    · show (match lookupAssoc st.callbacks n with
        | some _ => buttonsLoop allNames
            { st with callbacks := setAssoc st.callbacks n allNames } ns
        | none => .error (.callbackMissing n)) = .ok st2
      rw [hv]
      exact hloop
    · exact {
        location_eq := hspec.location_eq,
        retopoSourcePath_eq := hspec.retopoSourcePath_eq,
        referenceSourcePath_eq := hspec.referenceSourcePath_eq,
        tempRetopoFile_eq := hspec.tempRetopoFile_eq,
        tempReferenceFile_eq := hspec.tempReferenceFile_eq,
        tempRetopoIsFbx_eq := hspec.tempRetopoIsFbx_eq,
        tempReferenceIsFbx_eq := hspec.tempReferenceIsFbx_eq,
        mainRetopoFile_eq := hspec.mainRetopoFile_eq,
        mainReferenceFile_eq := hspec.mainReferenceFile_eq,
        primGroups_eq := hspec.primGroups_eq,
        nodes_eq := hspec.nodes_eq,
        folders_eq := hspec.folders_eq,
        retopoAgg_eq := hspec.retopoAgg_eq,
        referenceAgg_eq := hspec.referenceAgg_eq,
        cageAgg_eq := hspec.cageAgg_eq,
        groupData_eq := hspec.groupData_eq,
        callbacks_keep := by
          intro k hk
          have hk1 : k ∉ ns := fun hm => hk (List.mem_cons_of_mem n hm)
          have hk2 : k ≠ n := fun he => hk (he ▸ List.mem_cons_self n ns)
          rw [hspec.callbacks_keep k hk1]
          exact lookupAssoc_setAssoc_ne st.callbacks n k allNames hk2,
        callbacks_set := by
          intro n2 hn2
          rcases List.mem_cons.mp hn2 with hn2 | hn2
          · subst hn2
            by_cases hm : n2 ∈ ns
            · exact hspec.callbacks_set n2 hm
            · rw [hspec.callbacks_keep n2 hm]
              exact lookupAssoc_setAssoc_eq st.callbacks n2 allNames
          · exact hspec.callbacks_set n2 hn2 }

theorem removeCandidate_ok_inv (st : NetState) (c : String) (st1 : NetState)
    (h : removeCandidate st c = .ok st1) :
    groupPieces st c ∧ st1 = removedState st c := by
  by_cases h1 : (c ++ "_retopo") ∈ st.nodes
  · by_cases h2 : (c ++ "_reference") ∈ st.nodes.erase (c ++ "_retopo")
    · by_cases h3 : (c ++ "_cage") ∈
          (st.nodes.erase (c ++ "_retopo")).erase (c ++ "_reference")
      · by_cases h4 : (c ++ "_folder") ∈ st.folders
        · have hok := removeCandidate_eq_removedState st c
            ⟨h1, List.erase_subset _ _ h2,
              List.erase_subset _ _ (List.erase_subset _ _ h3), h4⟩
          rw [hok] at h
          exact ⟨⟨h1, List.erase_subset _ _ h2,
            List.erase_subset _ _ (List.erase_subset _ _ h3), h4⟩,
            (Except.ok.inj h).symm⟩
        · simp only [removeCandidate, destroyNode, if_pos h1, if_pos h2,
            if_pos h3, if_neg h4] at h
          exact absurd h (fun hc => Except.noConfusion hc)
      · simp only [removeCandidate, destroyNode, if_pos h1, if_pos h2,
          if_neg h3] at h
        exact absurd h (fun hc => Except.noConfusion hc)
    · simp only [removeCandidate, destroyNode, if_pos h1, if_neg h2] at h
      exact absurd h (fun hc => Except.noConfusion hc)
  · simp only [removeCandidate, destroyNode, if_neg h1] at h
    exact absurd h (fun hc => Except.noConfusion hc)

theorem removeLoop_error_of_missing (cs : List String) : ∀ (st : NetState),
    (∃ c ∈ cs, missingPieces st c) →
    ∃ e, removeLoop st cs = .error e := by
  induction cs with
  | nil =>
    intro st h
    obtain ⟨c, hc, _⟩ := h
    exact absurd hc (List.not_mem_nil c)
  | cons c cs ih =>
    intro st h
    cases hrc : removeCandidate st c with
    | error e =>
      refine ⟨e, ?_⟩
      show (match removeCandidate st c with
        | .ok st1 => removeLoop st1 cs
        | .error e => .error e) = .error e
      rw [hrc]
    | ok st1 =>
      obtain ⟨hpieces, hst1⟩ := removeCandidate_ok_inv st c st1 hrc
      obtain ⟨c2, hc2, hmiss⟩ := h
      rcases List.mem_cons.mp hc2 with hc2 | hc2
      · subst hc2
        obtain ⟨p1, p2, p3, p4⟩ := hpieces
        rcases hmiss with hm | hm | hm | hm
        · exact absurd p1 hm
        · exact absurd p2 hm
        · exact absurd p3 hm
        · exact absurd p4 hm
      · have hmiss2 : missingPieces st1 c2 := by
          subst hst1
          rcases hmiss with hm | hm | hm | hm
          · exact Or.inl (fun hmem => hm (List.erase_subset _ _
              (List.erase_subset _ _ (List.erase_subset _ _ hmem))))
          · exact Or.inr (Or.inl (fun hmem => hm (List.erase_subset _ _
              (List.erase_subset _ _ (List.erase_subset _ _ hmem)))))
          · exact Or.inr (Or.inr (Or.inl (fun hmem => hm (List.erase_subset _ _
              (List.erase_subset _ _ (List.erase_subset _ _ hmem))))))
          · exact Or.inr (Or.inr (Or.inr
              (fun hmem => hm (List.erase_subset _ _ hmem))))
        obtain ⟨e, he⟩ := ih st1 ⟨c2, hc2, hmiss2⟩
        refine ⟨e, ?_⟩
        show (match removeCandidate st c with
          | .ok st1 => removeLoop st1 cs
          | .error e => .error e) = .error e
        rw [hrc]
        exact he

/-! ### The candidate sets and the prepared state -/

theorem mem_removalCandidates (st : NetState) (rg : List String) (x : String) :
    x ∈ removalCandidates st rg ↔ (x ∈ pySplit st.primGroups ∧ x ∉ rg) := by
  unfold removalCandidates
  rw [mem_sortNames, List.mem_dedup, List.mem_filter]
  constructor
  · rintro ⟨h1, h2⟩
    rw [decide_eq_true_iff] at h2
    exact ⟨h1, fun hm => h2 ((mem_sortNames x rg).mpr hm)⟩
  · rintro ⟨h1, h2⟩
    refine ⟨h1, ?_⟩
    rw [decide_eq_true_iff]
    exact fun hm => h2 ((mem_sortNames x rg).mp hm)

theorem mem_additionCandidates (st : NetState) (rg : List String) (x : String) :
    x ∈ additionCandidates st rg ↔ (x ∈ rg ∧ x ∉ pySplit st.primGroups) := by
  unfold additionCandidates
  rw [mem_sortNames, List.mem_dedup, List.mem_filter]
  constructor
  · rintro ⟨h1, h2⟩
    rw [decide_eq_true_iff] at h2
    exact ⟨(mem_sortNames x rg).mp h1, h2⟩
  · rintro ⟨h1, h2⟩
    refine ⟨(mem_sortNames x rg).mpr h1, ?_⟩
    rw [decide_eq_true_iff]
    exact h2

theorem nodup_removalCandidates (st : NetState) (rg : List String) :
    (removalCandidates st rg).Nodup :=
  nodup_sortNames _ (List.nodup_dedup _)

theorem nodup_additionCandidates (st : NetState) (rg : List String) :
    (additionCandidates st rg).Nodup :=
  nodup_sortNames _ (List.nodup_dedup _)

theorem curList_eq_pySplit (s : String) (hne : s ≠ "") : curList s = pySplit s := by
  unfold curList get_current_prim_groups
  rw [if_neg hne]
  rfl

theorem update_network_eq_of_val (st : NetState) (rg fg : List String)
    (hval : (primitive_groups_match rg fg).1 = true) :
    update_network st rg fg =
      (match removeLoop (stPrepared st) (removalCandidates st rg) with
        | .error e => .error e
        | .ok st3 =>
          match addLoop (sortNames rg) st3 (additionCandidates st rg) with
          | .error e => .error e
          | .ok st4 => buttonsLoop (sortNames rg) st4 rg) := by
  unfold update_network
  rw [if_neg (show ¬(primitive_groups_match rg fg).1 = false from by
    rw [hval]; exact fun hc => Bool.noConfusion hc)]
  rfl

theorem update_network_master (st : NetState) (rg fg : List String)
    (h : UpdateReady st rg fg) :
    ∃ stR stA st2,
      removeLoop (stPrepared st) (removalCandidates st rg) = .ok stR ∧
      addLoop (sortNames rg) stR (additionCandidates st rg) = .ok stA ∧
      buttonsLoop (sortNames rg) stA rg = .ok st2 ∧
      update_network st rg fg = .ok st2 ∧
      RemovalSpec (stPrepared st) stR (removalCandidates st rg) ∧
      AdditionSpec stR stA (additionCandidates st rg) (sortNames rg) ∧
      ButtonsSpec stA st2 rg (sortNames rg) := by
  have hsplit : curList st.primGroups = pySplit st.primGroups :=
    curList_eq_pySplit st.primGroups h.hne
  have hcurPrep : curList (stPrepared st).primGroups = curList st.primGroups := rfl
  -- removal loop
  have hrempieces : ∀ c ∈ removalCandidates st rg, groupPieces (stPrepared st) c :=
    fun c hc => h.hremove c hc
  obtain ⟨stR, hremLoop, rspec⟩ := removeLoop_spec (removalCandidates st rg)
    (stPrepared st) hrempieces (nodup_removalCandidates st rg)
    h.hold_good h.hold_nodup
  -- addition loop
  have haddgood : ∀ c ∈ additionCandidates st rg, goodName c := fun c hc =>
    h.hnew_good c ((mem_additionCandidates st rg c).mp hc).1
  have haddabsent : ∀ c ∈ additionCandidates st rg, groupAbsent stR c := by
    intro c hc
    obtain ⟨a1, a2, a3⟩ := h.hadd c hc
    exact ⟨fun hm => a1 (rspec.nodes_sub _ hm),
      fun hm => a2 (rspec.nodes_sub _ hm),
      fun hm => a3 (rspec.nodes_sub _ hm)⟩
  obtain ⟨stA, haddLoop, aspec⟩ := addLoop_spec (sortNames rg)
    (additionCandidates st rg) stR haddgood haddabsent
    (nodup_additionCandidates st rg) rspec.good_cur rspec.nodup_cur
  -- buttons loop
  have hbuttons : ∀ n ∈ rg, (lookupAssoc stA.callbacks n).isSome = true := by
    intro n hn
    by_cases hold : n ∈ curList st.primGroups
    · have hnotrem : n ∉ removalCandidates st rg := by
        rw [mem_removalCandidates]
        push_neg
        intro _
        exact hn
      have hnotadd : n ∉ additionCandidates st rg := by
        rw [mem_additionCandidates]
        push_neg
        intro _
        rw [← hsplit]
        exact hold
      rw [aspec.callbacks_keep n hnotadd, rspec.callbacks_keep n hnotrem]
      exact h.hcb n hn hold
    · have hisadd : n ∈ additionCandidates st rg := by
        rw [mem_additionCandidates, ← hsplit]
        exact ⟨hn, hold⟩
      exact lookupAssoc_isSome_of_eq _ _ _ (aspec.callbacks_new n hisadd)
  obtain ⟨st2, hbtnLoop, bspec⟩ := buttonsLoop_spec (sortNames rg) rg stA hbuttons
  refine ⟨stR, stA, st2, hremLoop, haddLoop, hbtnLoop, ?_, rspec, aspec, bspec⟩
  rw [update_network_eq_of_val st rg fg h.hval, hremLoop]
  show (match addLoop (sortNames rg) stR (additionCandidates st rg) with
    | Except.error e => Except.error e
    | Except.ok st4 => buttonsLoop (sortNames rg) st4 rg) = Except.ok st2
  rw [haddLoop]
  exact hbtnLoop

theorem update_network_error_of_missing (st : NetState) (rg fg : List String)
    (hval : (primitive_groups_match rg fg).1 = true)
    (hmiss : ∃ c ∈ removalCandidates st rg, missingPieces st c) :
    ∃ e, update_network st rg fg = .error e := by
  have hmiss2 : ∃ c ∈ removalCandidates st rg, missingPieces (stPrepared st) c :=
    hmiss
  obtain ⟨e, he⟩ :=
    removeLoop_error_of_missing (removalCandidates st rg) (stPrepared st) hmiss2
  refine ⟨e, ?_⟩
  rw [update_network_eq_of_val st rg fg hval, he]

theorem create_material_preserves (sc : ObjScene) (name : String) :
    (create_material sc name).1.sourceNetworks = sc.sourceNetworks ∧
    (create_material sc name).1.bakeNodes = sc.bakeNodes ∧
    (create_material sc name).1.outputNodes = sc.outputNodes ∧
    (create_material sc name).1.scenePrimGroups = sc.scenePrimGroups ∧
    (create_material sc name).1.networkExists = sc.networkExists := by
  unfold create_material
  split
  · exact ⟨rfl, rfl, rfl, rfl, rfl⟩
  · exact ⟨rfl, rfl, rfl, rfl, rfl⟩

/-! ### C1 — correspondence engine round-trip -/

/-- C1 counterexample.  The claim states that the points of the topology
donor beyond the position donor point count are left unchanged; with the
donors sharing their first point, the correspondence output moves the extra
point to the zero vector instead of keeping (7, 7, 7). -/

theorem C1_counterexample :
    c1topoDonor.pos.take c1posDonor.pos.length = c1posDonor.pos ∧
    c1posDonor.pos.length < c1topoDonor.pos.length ∧
    (correspond c1posDonor c1topoDonor).pos ≠
      c1posDonor.pos ++ c1topoDonor.pos.drop c1posDonor.pos.length := by
  refine ⟨by decide, by decide, by decide⟩

/-- C1 amended.  For a position donor of n points and a topology donor of
m ≥ n points sharing the first n points, the correspondence output carries
the position donor positions on points 0..n-1, and the points n..m-1 are
moved to the zero vector (the VEX default for a failed lookup), not left
unchanged. -/

theorem C1_theorem (pd td : Mesh) (n m : Nat)
    (hn : n = pd.pos.length) (hm : m = td.pos.length) (hle : n ≤ m)
    (hshare : td.pos.take n = pd.pos) :
    (correspond pd td).pos = pd.pos ++ List.replicate (m - n) vzero := by
  subst hn
  subst hm
  show wranglePosAux pd.pos 0 td.pos = _
  rw [wranglePosAux_spec]
  rw [List.take_of_length_le hle]

/-- C1 witness: the amended theorem evaluated on the concrete donors. -/

theorem C1_witness :
    ((1 : Nat) = c1posDonor.pos.length ∧ (2 : Nat) = c1topoDonor.pos.length ∧
      (1 : Nat) ≤ 2 ∧ c1topoDonor.pos.take 1 = c1posDonor.pos) ∧
    (correspond c1posDonor c1topoDonor).pos =
      c1posDonor.pos ++ List.replicate (2 - 1) vzero :=
  ⟨⟨by decide, by decide, by decide, by decide⟩,
    C1_theorem c1posDonor c1topoDonor 1 2 (by decide) (by decide) (by decide)
      (by decide)⟩

/-! ### C4 — partition-set validation -/

/-- C4 counterexample.  The claim requires the one-set-empty failure to
carry a kind distinct from the plain mismatch failure; the code displays the
same message for both, so the two failures are indistinguishable. -/

theorem C4_counterexample :
    (primitive_groups_match ["a"] []).2 = (primitive_groups_match ["a"] ["b"]).2 ∧
    (primitive_groups_match ["a"] []).1 = false ∧
    (primitive_groups_match ["a"] ["b"]).1 = false := by
  refine ⟨by decide, by decide, by decide⟩

/-- C4 amended.  Validation succeeds exactly when the two sorted name lists
are equal and non-empty; both-empty fails with the distinct no-groups
message, while the one-empty case and the name mismatch case fail with one
and the same no-match message (there is no separate asymmetric kind). -/

theorem C4_theorem :
    (∀ g1 g2 : List String,
      (primitive_groups_match g1 g2).1 = true ↔
        (sortNames g1 = sortNames g2 ∧ g1 ≠ [])) ∧
    primitive_groups_match [] [] = (false, some MatchMsg.noGroups) ∧
    primitive_groups_match ["a"] [] = (false, some MatchMsg.noMatch) ∧
    primitive_groups_match ["a"] ["b"] = (false, some MatchMsg.noMatch) := by
  refine ⟨?_, by decide, by decide, by decide⟩
  intro g1 g2
  unfold primitive_groups_match
  by_cases h1 : g1.length ≠ g2.length
  · rw [if_pos h1]
    simp only [show ((false, some MatchMsg.noMatch) :
      Bool × Option MatchMsg).1 = false from rfl]
    constructor
    · intro hc
      exact absurd hc (by simp)
    · rintro ⟨hs, _⟩
      exfalso
      apply h1
      rw [← length_sortNames g1, ← length_sortNames g2, hs]
  · rw [if_neg h1]
    push_neg at h1
    have h2 : ¬((g1.length = 0 ∧ g2.length ≠ 0) ∨
        (g1.length ≠ 0 ∧ g2.length = 0)) := by
      rw [h1]
      rintro (⟨ha, hb⟩ | ⟨ha, hb⟩)
      · exact hb ha
      · exact ha hb
    rw [if_neg h2]
    by_cases h3 : g1.length = 0 ∧ g2.length = 0
    · rw [if_pos h3]
      constructor
      · intro hc
        exact absurd hc (by simp)
      · rintro ⟨_, hne⟩
        exact absurd (List.length_eq_zero.mp h3.1) hne
    · rw [if_neg h3]
      have hne : g1 ≠ [] := by
        intro he
        apply h3
        constructor
        · rw [he]
          rfl
        · rw [← h1, he]
          rfl
      by_cases h4 : sortNames g1 = sortNames g2
      · rw [if_pos h4]
        simp [h4, hne]
      · rw [if_neg h4]
        constructor
        · intro hc
          exact absurd hc (by simp)
        · rintro ⟨hs, _⟩
          exact absurd hs h4

/-! ### C5 — donor wiring of the cage topology-correspondence stage -/

/-- C5 counterexample.  The claim makes the cage post-subdivision mesh the
topology donor; on concrete meshes with different connectivity the stage
output carries the retopo connectivity, not the cage connectivity. -/

theorem C5_counterexample :
    (cage_topology_stage c5cage c5retopo).prims ≠ c5cage.prims ∧
    (cage_topology_stage c5cage c5retopo).prims = c5retopo.prims := by
  refine ⟨by decide, by decide⟩

/-- C5 amended.  In create_cage_group the material-stripped re-import of the
retopo group triangulated output is the topology donor (the output carries
its connectivity), and the cage chain post-subdivision mesh is the position
donor (each output point takes the cage position at its index, the zero
vector past the cage point count); the material attribute is stripped. -/

theorem C5_theorem (cage retopo : Mesh) :
    (cage_topology_stage cage retopo).prims = retopo.prims ∧
    (cage_topology_stage cage retopo).pos =
      cage.pos.take retopo.pos.length ++
        List.replicate (retopo.pos.length - cage.pos.length) vzero ∧
    (cage_topology_stage cage retopo).primMat = [] := by
  refine ⟨rfl, ?_, rfl⟩
  show wranglePosAux cage.pos 0 retopo.pos = _
  rw [wranglePosAux_spec]

/-! ### C9 — aggregator index compaction -/

/-- C9.  When some objpath entry of the aggregator multiparm contains the
target path, remove_from_multiparm removes exactly one instance: the result
is one reference shorter and is an in-order sublist of the original entries
(contiguous, no index gap). -/

theorem C9_theorem (entries : List String) (value : String)
    (h : ∃ e ∈ entries, strContains e value = true) :
    (remove_from_multiparm entries "objpath" value).length + 1 = entries.length ∧
    (remove_from_multiparm entries "objpath" value).Sublist entries := by
  rw [remove_from_multiparm_spec]
  exact ⟨removeFirstContaining_length value entries h,
    removeFirstContaining_sublist value entries⟩

/-- C9 witness: removing one of two references leaves one, with no gap. -/

theorem C9_witness :
    (∃ e ∈ ["/obj/a_retopo", "/obj/b_retopo"],
      strContains e "/obj/a_retopo" = true) ∧
    ((remove_from_multiparm ["/obj/a_retopo", "/obj/b_retopo"] "objpath"
        "/obj/a_retopo").length + 1 =
      (["/obj/a_retopo", "/obj/b_retopo"] : List String).length ∧
    (remove_from_multiparm ["/obj/a_retopo", "/obj/b_retopo"] "objpath"
        "/obj/a_retopo").Sublist ["/obj/a_retopo", "/obj/b_retopo"]) :=
  ⟨by decide, C9_theorem ["/obj/a_retopo", "/obj/b_retopo"] "/obj/a_retopo"
    (by decide)⟩

/-! ### C10 — idempotence of the prim-group list operations -/

/-- C10 counterexample.  On a persisted string that is not in sorted joined
normal form, adding an already-present name rewrites the string (the add
always re-persists the sorted join), so the claim does not hold for every
control state. -/

theorem C10_counterexample :
    "a" ∈ (get_current_prim_groups "b a").getD [] ∧
    add_to_current_prim_groups "b a" "a" ≠ "b a" := by
  refine ⟨by decide, by decide⟩

/-- C10 amended.  Adding an already-present name leaves the persisted string
unchanged on every state whose string is in sorted joined normal form (the
form every writer of this module produces); removing an absent name (or
removing from the empty list) leaves the string unchanged on every state. -/

theorem C10_theorem :
    (∀ s name : String, name ∈ (get_current_prim_groups s).getD [] →
      pyJoin (sortNames ((get_current_prim_groups s).getD [])) = s →
      add_to_current_prim_groups s name = s) ∧
    (∀ s name : String, name ∉ (get_current_prim_groups s).getD [] →
      remove_from_current_prim_groups s name = s) := by
  constructor
  · intro s name hmem hnorm
    have hrw : add_to_current_prim_groups s name =
        pyJoin (sortNames (if name ∈ (get_current_prim_groups s).getD []
          then (get_current_prim_groups s).getD []
          else (get_current_prim_groups s).getD [] ++ [name])) := rfl
    rw [hrw, if_pos hmem]
    exact hnorm
  · intro s name hmem
    unfold remove_from_current_prim_groups
    cases hc : get_current_prim_groups s with
    | none => rfl
    | some l =>
      have hl : name ∉ l := by
        rw [hc] at hmem
        exact hmem
      show (if name ∈ l then set_current_prim_groups (l.erase name) else s) = s
      rw [if_neg hl]

/-- C10 witness: the amended theorem evaluated on the normal-form string
"a b". -/

theorem C10_witness :
    ("a" ∈ (get_current_prim_groups "a b").getD [] ∧
      pyJoin (sortNames ((get_current_prim_groups "a b").getD [])) = "a b" ∧
      add_to_current_prim_groups "a b" "a" = "a b") ∧
    ("c" ∉ (get_current_prim_groups "a b").getD [] ∧
      remove_from_current_prim_groups "a b" "c" = "a b") :=
  ⟨⟨by decide, by decide, C10_theorem.1 "a b" "a" (by decide) (by decide)⟩,
    ⟨by decide, C10_theorem.2 "a b" "c" (by decide)⟩⟩

/-! ### C2 — reconciler convergence -/

/-- C2 counterexample.  For the empty-to-non-empty transition the claim
requires the final partition set to equal the new set; the code splits the
empty persisted string into the single name "" and aborts with an
AttributeError while destroying its non-existent nodes, so no final state is
produced at all. -/

theorem C2_counterexample :
    curList stC2.primGroups = [] ∧
    ¬ ∃ st2, update_network stC2 ["a"] ["a"] = Except.ok st2 := by
  refine ⟨rfl, ?_⟩
  rintro ⟨st2, h⟩
  rw [show update_network stC2 ["a"] ["a"] =
    Except.error (UErr.nodeMissing "_retopo") from by decide] at h
  exact Except.noConfusion h

/-- C2 amended.  When the persisted string is non-empty and well formed,
the new group list is well formed, validation succeeds and the graph is
intact (stale bundles present, new names fresh, surviving buttons present),
update_network succeeds and the resulting partition-name set equals the new
set, regardless of the old one. -/

theorem C2_theorem (st : NetState) (rg fg : List String)
    (h : UpdateReady st rg fg) :
    ∃ st2, update_network st rg fg = Except.ok st2 ∧
      ∀ x, x ∈ curList st2.primGroups ↔ x ∈ rg := by
  obtain ⟨stR, stA, st2, _, _, _, hupd, rspec, aspec, bspec⟩ :=
    update_network_master st rg fg h
  refine ⟨st2, hupd, ?_⟩
  intro x
  have hsplit := curList_eq_pySplit st.primGroups h.hne
  have hcur2 : curList st2.primGroups = curList stA.primGroups := by
    rw [bspec.primGroups_eq]
  rw [hcur2, aspec.mem_cur x, rspec.mem_cur x]
  rw [show curList (stPrepared st).primGroups = curList st.primGroups from rfl]
  rw [mem_removalCandidates st rg x, mem_additionCandidates st rg x, ← hsplit]
  constructor
  · rintro (⟨hx, hnx⟩ | ⟨hx, _⟩)
    · by_cases hrg : x ∈ rg
      · exact hrg
      · exact absurd ⟨hx, hrg⟩ hnx
    · exact hx
  · intro hx
    by_cases hold : x ∈ curList st.primGroups
    · exact Or.inl ⟨hold, fun hc => hc.2 hx⟩
    · exact Or.inr ⟨hx, hold⟩

/-- C2 witness: reconciling the built network over a and b with the new
partition set containing b and c converges to exactly that set. -/

theorem C2_witness :
    ∃ st2, update_network stC2w ["b", "c"] ["c", "b"] = Except.ok st2 ∧
      ∀ x, x ∈ curList st2.primGroups ↔ x ∈ ["b", "c"] :=
  C2_theorem stC2w ["b", "c"] ["c", "b"]
    ⟨by decide, by decide, by decide, by decide, by decide, by decide,
      by decide, by decide, by decide⟩

/-! ### C3 — reconciler non-interference -/

/-- C3 counterexample.  The name b survives the reconciliation from the set
over a, b to the set over b, c, yet its display-button script callbacks on
the control node are rewritten (their payload changes from the old group
list to the new one), so not all of its parameters are identical before and
after. -/

theorem C3_counterexample :
    "b" ∈ curList stC3.primGroups ∧ "b" ∈ (["b", "c"] : List String) ∧
    exceptIsOk (update_network stC3 ["b", "c"] ["b", "c"]) = true ∧
    callbacksOfResult (update_network stC3 ["b", "c"] ["b", "c"]) "b" ≠
      some (lookupAssoc stC3.callbacks "b") := by
  refine ⟨by decide, by decide, by decide, by decide⟩

/-- C3 amended.  For a name present in both the old and the new set, the
reconciliation keeps its three bake group nodes, its control folder, its
per-group data (edit region and parameter values), its membership in the
partition list and (when no removed name path occurs as a substring of its
aggregator path) its three aggregator references; its display-button
callbacks however are rewritten to embed the new sorted group list. -/

theorem C3_theorem (st : NetState) (rg fg : List String) (k : String)
    (h : UpdateReady st rg fg)
    (hkOld : k ∈ curList st.primGroups) (hkNew : k ∈ rg)
    (hkPieces : groupPieces st k)
    (hkAggR : (st.location ++ "/" ++ k ++ "_retopo") ∈ st.retopoAgg)
    (hkAggF : (st.location ++ "/" ++ k ++ "_reference") ∈ st.referenceAgg)
    (hkAggC : (st.location ++ "/" ++ k ++ "_cage") ∈ st.cageAgg)
    (hnoSub : ∀ c ∈ removalCandidates st rg,
      strContains (st.location ++ "/" ++ k ++ "_retopo")
        (st.location ++ "/" ++ c ++ "_retopo") = false ∧
      strContains (st.location ++ "/" ++ k ++ "_reference")
        (st.location ++ "/" ++ c ++ "_reference") = false ∧
      strContains (st.location ++ "/" ++ k ++ "_cage")
        (st.location ++ "/" ++ c ++ "_cage") = false) :
    ∃ st2, update_network st rg fg = Except.ok st2 ∧
      (k ++ "_retopo") ∈ st2.nodes ∧ (k ++ "_reference") ∈ st2.nodes ∧
      (k ++ "_cage") ∈ st2.nodes ∧ (k ++ "_folder") ∈ st2.folders ∧
      lookupAssoc st2.groupData k = lookupAssoc st.groupData k ∧
      k ∈ curList st2.primGroups ∧
      (st.location ++ "/" ++ k ++ "_retopo") ∈ st2.retopoAgg ∧
      (st.location ++ "/" ++ k ++ "_reference") ∈ st2.referenceAgg ∧
      (st.location ++ "/" ++ k ++ "_cage") ∈ st2.cageAgg ∧
      lookupAssoc st2.callbacks k = some (sortNames rg) := by
  obtain ⟨stR, stA, st2, _, _, _, hupd, rspec, aspec, bspec⟩ :=
    update_network_master st rg fg h
  have hsplit := curList_eq_pySplit st.primGroups h.hne
  have hkNotRem : k ∉ removalCandidates st rg := by
    rw [mem_removalCandidates]
    push_neg
    intro _
    exact hkNew
  have hkNotAdd : k ∉ additionCandidates st rg := by
    rw [mem_additionCandidates]
    push_neg
    intro _
    rw [← hsplit]
    exact hkOld
  have hcne : ∀ c ∈ removalCandidates st rg, c ≠ k := by
    intro c hc he
    exact hkNotRem (he ▸ hc)
  obtain ⟨p1, p2, p3, p4⟩ := hkPieces
  have hnode : ∀ nm, nm ∈ st.nodes →
      (∀ c ∈ removalCandidates st rg,
        nm ≠ c ++ "_retopo" ∧ nm ≠ c ++ "_reference" ∧ nm ≠ c ++ "_cage") →
      nm ∈ stA.nodes := fun nm hm hdiff =>
    aspec.nodes_grow nm (rspec.nodes_keep nm hm hdiff)
  refine ⟨st2, hupd, ?_, ?_, ?_, ?_, ?_, ?_, ?_, ?_, ?_, ?_⟩
  · rw [bspec.nodes_eq]
    refine hnode _ p1 ?_
    intro c hc
    refine ⟨?_, append_retopo_ne_reference k c, append_retopo_ne_cage k c⟩
    intro he
    exact hcne c hc (retopo_name_inj k c he).symm
  · rw [bspec.nodes_eq]
    refine hnode _ p2 ?_
    intro c hc
    refine ⟨Ne.symm (append_retopo_ne_reference c k), ?_,
      append_reference_ne_cage k c⟩
    intro he
    exact hcne c hc (reference_name_inj k c he).symm
  · rw [bspec.nodes_eq]
    refine hnode _ p3 ?_
    intro c hc
    refine ⟨Ne.symm (append_retopo_ne_cage c k),
      Ne.symm (append_reference_ne_cage c k), ?_⟩
    intro he
    exact hcne c hc (cage_name_inj k c he).symm
  · rw [bspec.folders_eq]
    refine aspec.folders_grow _ (rspec.folders_keep _ p4 ?_)
    intro c hc he
    exact hcne c hc (folder_name_inj k c he).symm
  · rw [bspec.groupData_eq, aspec.groupData_keep k hkNotAdd,
      rspec.groupData_keep k hkNotRem]
    exact rfl
  · have hcur2 : curList st2.primGroups = curList stA.primGroups := by
      rw [bspec.primGroups_eq]
    rw [hcur2, aspec.mem_cur k, rspec.mem_cur k]
    exact Or.inl ⟨hkOld, hkNotRem⟩
  · rw [bspec.retopoAgg_eq]
    refine aspec.retopoAgg_grow _ (rspec.retopoAgg_keep _ hkAggR ?_)
    intro c hc
    exact (hnoSub c hc).1
  · rw [bspec.referenceAgg_eq]
    refine aspec.referenceAgg_grow _ (rspec.referenceAgg_keep _ hkAggF ?_)
    intro c hc
    exact (hnoSub c hc).2.1
  · rw [bspec.cageAgg_eq]
    refine aspec.cageAgg_grow _ (rspec.cageAgg_keep _ hkAggC ?_)
    intro c hc
    exact (hnoSub c hc).2.2
  · exact bspec.callbacks_set k hkNew

/-- C3 witness: reconciling a, b to b, c preserves everything of b except
its display-button callbacks, which now embed the list over b and c. -/

theorem C3_witness :
    ∃ st2, update_network stC3w ["b", "c"] ["b", "c"] = Except.ok st2 ∧
      ("b" ++ "_retopo") ∈ st2.nodes ∧ ("b" ++ "_reference") ∈ st2.nodes ∧
      ("b" ++ "_cage") ∈ st2.nodes ∧ ("b" ++ "_folder") ∈ st2.folders ∧
      lookupAssoc st2.groupData "b" = lookupAssoc stC3w.groupData "b" ∧
      "b" ∈ curList st2.primGroups ∧
      (stC3w.location ++ "/" ++ "b" ++ "_retopo") ∈ st2.retopoAgg ∧
      (stC3w.location ++ "/" ++ "b" ++ "_reference") ∈ st2.referenceAgg ∧
      (stC3w.location ++ "/" ++ "b" ++ "_cage") ∈ st2.cageAgg ∧
      lookupAssoc st2.callbacks "b" = some (sortNames ["b", "c"]) :=
  C3_theorem stC3w ["b", "c"] ["b", "c"] "b"
    ⟨by decide, by decide, by decide, by decide, by decide, by decide,
      by decide, by decide, by decide⟩
    (by decide) (by decide) (by decide) (by decide) (by decide) (by decide)
    (by decide)

/-! ### C6 — handling of missing graph nodes during removal -/

/-- C6 counterexample.  With the a_retopo node destroyed externally, the
reconciliation that should remove the partition a does not skip it with a
warning: it aborts fatally, producing no result state. -/

theorem C6_counterexample :
    "a" ∈ removalCandidates stC6 ["b"] ∧
    missingPieces stC6 "a" ∧
    ¬ ∃ st2, update_network stC6 ["b"] ["b"] = Except.ok st2 := by
  refine ⟨by decide, by decide, ?_⟩
  rintro ⟨st2, h⟩
  rw [show update_network stC6 ["b"] ["b"] =
    Except.error (UErr.nodeMissing "a_retopo") from by decide] at h
  exact Except.noConfusion h

/-- C6 amended.  Whenever validation succeeds and some removal-set name has
a missing node or folder, update_network aborts with an error (the
AttributeError on the None node): the operation is fatal, nothing is skipped
and no warning is recorded. -/

theorem C6_theorem (st : NetState) (rg fg : List String)
    (hval : (primitive_groups_match rg fg).1 = true)
    (hmiss : ∃ c ∈ removalCandidates st rg, missingPieces st c) :
    ∃ e, update_network st rg fg = Except.error e :=
  update_network_error_of_missing st rg fg hval hmiss

/-- C6 witness: the amended theorem evaluated on the network whose a_cage
node is gone. -/

theorem C6_witness :
    ((primitive_groups_match ["b"] ["b"]).1 = true ∧
      ∃ c ∈ removalCandidates stC6w ["b"], missingPieces stC6w c) ∧
    ∃ e, update_network stC6w ["b"] ["b"] = Except.error e :=
  ⟨⟨by decide, by decide⟩, C6_theorem stC6w ["b"] ["b"] (by decide) (by decide)⟩

/-! ### C7 — update atomicity on validation failure -/

/-- C7.  When the validation of the reloaded temporary copies fails,
update_network returns having touched only the temporary import parameters:
the persisted partition list, the bake group nodes, the folders, the three
aggregators, the callbacks, the per-group data and the main import
parameters are all exactly as before. -/

theorem C7_theorem (st : NetState) (rg fg : List String)
    (hval : (primitive_groups_match rg fg).1 = false) :
    ∃ st2, update_network st rg fg = Except.ok st2 ∧
      st2.primGroups = st.primGroups ∧ st2.nodes = st.nodes ∧
      st2.folders = st.folders ∧ st2.retopoAgg = st.retopoAgg ∧
      st2.referenceAgg = st.referenceAgg ∧ st2.cageAgg = st.cageAgg ∧
      st2.callbacks = st.callbacks ∧ st2.groupData = st.groupData ∧
      st2.mainRetopoFile = st.mainRetopoFile ∧
      st2.mainReferenceFile = st.mainReferenceFile := by
  refine ⟨{ st with
      tempRetopoFile := st.retopoSourcePath,
      tempReferenceFile := st.referenceSourcePath,
      tempRetopoIsFbx := is_path_fbx st.retopoSourcePath,
      tempReferenceIsFbx := is_path_fbx st.referenceSourcePath }, ?_,
    rfl, rfl, rfl, rfl, rfl, rfl, rfl, rfl, rfl, rfl⟩
  unfold update_network
  rw [if_pos hval]

/-- C7 witness: a mismatching reload of the one-partition network leaves
every live part of the state unchanged. -/

theorem C7_witness :
    (primitive_groups_match ["a"] []).1 = false ∧
    ∃ st2, update_network stC7 ["a"] [] = Except.ok st2 ∧
      st2.primGroups = stC7.primGroups ∧ st2.nodes = stC7.nodes ∧
      st2.folders = stC7.folders ∧ st2.retopoAgg = stC7.retopoAgg ∧
      st2.referenceAgg = stC7.referenceAgg ∧ st2.cageAgg = stC7.cageAgg ∧
      st2.callbacks = stC7.callbacks ∧ st2.groupData = stC7.groupData ∧
      st2.mainRetopoFile = stC7.mainRetopoFile ∧
      st2.mainReferenceFile = stC7.mainReferenceFile :=
  ⟨by decide, C7_theorem stC7 ["a"] [] (by decide)⟩

/-! ### C8 — create atomicity on a missing source -/

/-- C8 counterexample.  create_network with a non-resolving retopo source
aborts, but only after creating the two materials and setting the material
parameters: the scene is not left in its pre-operation state. -/

theorem C8_counterexample :
    (create_network sc8 false true ["a"] ["a"]).2 =
      some (CreateErr.sourceMissing "retopo") ∧
    (create_network sc8 false true ["a"] ["a"]).1.matNodes =
      ["cage", "reference"] ∧
    (create_network sc8 false true ["a"] ["a"]).1 ≠ sc8 := by
  refine ⟨by decide, by decide, by decide⟩

/-- C8 amended.  When a source path does not resolve, create_network aborts
with the source-missing error before creating any source network, bake
group or output group and before touching the partition list or the
network-exists flag; the cage and reference materials and the two material
parameters however have already been created and set by then. -/

theorem C8_theorem (sc : ObjScene) (nodeAt isFile : String → Bool)
    (retopoPath referencePath : String) (rg fg : List String)
    (h : path_exists nodeAt isFile retopoPath = false ∨
      path_exists nodeAt isFile referencePath = false) :
    (∃ which, (create_network sc (path_exists nodeAt isFile retopoPath)
        (path_exists nodeAt isFile referencePath) rg fg).2 =
      some (CreateErr.sourceMissing which)) ∧
    (create_network sc (path_exists nodeAt isFile retopoPath)
      (path_exists nodeAt isFile referencePath) rg fg).1.sourceNetworks =
      sc.sourceNetworks ∧
    (create_network sc (path_exists nodeAt isFile retopoPath)
      (path_exists nodeAt isFile referencePath) rg fg).1.bakeNodes =
      sc.bakeNodes ∧
    (create_network sc (path_exists nodeAt isFile retopoPath)
      (path_exists nodeAt isFile referencePath) rg fg).1.outputNodes =
      sc.outputNodes ∧
    (create_network sc (path_exists nodeAt isFile retopoPath)
      (path_exists nodeAt isFile referencePath) rg fg).1.scenePrimGroups =
      sc.scenePrimGroups ∧
    (create_network sc (path_exists nodeAt isFile retopoPath)
      (path_exists nodeAt isFile referencePath) rg fg).1.networkExists =
      sc.networkExists := by
  have e1 := create_material_preserves sc "cage"
  have e2 := create_material_preserves (create_material sc "cage").1 "reference"
  cases hb1 : path_exists nodeAt isFile retopoPath with
  | false =>
    have hres : create_network sc false
        (path_exists nodeAt isFile referencePath) rg fg =
        ({ (create_material (create_material sc "cage").1 "reference").1 with
            cageMaterialParm := (create_material sc "cage").2,
            referenceMaterialParm :=
              (create_material (create_material sc "cage").1 "reference").2 },
          some (CreateErr.sourceMissing "retopo")) := rfl
    rw [hres]
    exact ⟨⟨"retopo", rfl⟩,
      e2.1.trans e1.1, e2.2.1.trans e1.2.1, e2.2.2.1.trans e1.2.2.1,
      e2.2.2.2.1.trans e1.2.2.2.1, e2.2.2.2.2.trans e1.2.2.2.2⟩
  | true =>
    have hb2 : path_exists nodeAt isFile referencePath = false := by
      rcases h with hh | hh
      · rw [hb1] at hh
        exact absurd hh (by simp)
      · exact hh
    rw [hb2]
    have hres : create_network sc true false rg fg =
        ({ (create_material (create_material sc "cage").1 "reference").1 with
            cageMaterialParm := (create_material sc "cage").2,
            referenceMaterialParm :=
              (create_material (create_material sc "cage").1 "reference").2 },
          some (CreateErr.sourceMissing "reference")) := rfl
    rw [hres]
    exact ⟨⟨"reference", rfl⟩,
      e2.1.trans e1.1, e2.2.1.trans e1.2.1, e2.2.2.1.trans e1.2.2.1,
      e2.2.2.2.1.trans e1.2.2.2.1, e2.2.2.2.2.trans e1.2.2.2.2⟩

/-- C8 witness: the amended theorem evaluated on the untouched scene with a
file system that resolves nothing. -/

theorem C8_witness :
    (path_exists (fun _ => false) (fun _ => false) "in_retopo.bgeo" = false ∨
      path_exists (fun _ => false) (fun _ => false) "in_reference.bgeo" = false) ∧
    ((∃ which, (create_network sc8
        (path_exists (fun _ => false) (fun _ => false) "in_retopo.bgeo")
        (path_exists (fun _ => false) (fun _ => false) "in_reference.bgeo")
        ["a"] ["a"]).2 = some (CreateErr.sourceMissing which)) ∧
      (create_network sc8
        (path_exists (fun _ => false) (fun _ => false) "in_retopo.bgeo")
        (path_exists (fun _ => false) (fun _ => false) "in_reference.bgeo")
        ["a"] ["a"]).1.sourceNetworks = sc8.sourceNetworks ∧
      (create_network sc8
        (path_exists (fun _ => false) (fun _ => false) "in_retopo.bgeo")
        (path_exists (fun _ => false) (fun _ => false) "in_reference.bgeo")
        ["a"] ["a"]).1.bakeNodes = sc8.bakeNodes ∧
      (create_network sc8
        (path_exists (fun _ => false) (fun _ => false) "in_retopo.bgeo")
        (path_exists (fun _ => false) (fun _ => false) "in_reference.bgeo")
        ["a"] ["a"]).1.outputNodes = sc8.outputNodes ∧
      (create_network sc8
        (path_exists (fun _ => false) (fun _ => false) "in_retopo.bgeo")
        (path_exists (fun _ => false) (fun _ => false) "in_reference.bgeo")
        ["a"] ["a"]).1.scenePrimGroups = sc8.scenePrimGroups ∧
      (create_network sc8
        (path_exists (fun _ => false) (fun _ => false) "in_retopo.bgeo")
        (path_exists (fun _ => false) (fun _ => false) "in_reference.bgeo")
        ["a"] ["a"]).1.networkExists = sc8.networkExists) :=
  ⟨Or.inl (by decide),
    C8_theorem sc8 (fun _ => false) (fun _ => false) "in_retopo.bgeo"
      "in_reference.bgeo" ["a"] ["a"] (Or.inl (by decide))⟩

end Dynamite

